import Mathlib

/-!
Verification development for the core module (`src/lua.rs`) of a safe Lua
embedding layer.  The interpreter (the Lua C API) is modelled as a shallow
state machine: the operand stack is a list of raw values, the registry is an
association list from integer slot ids to raw values, and the per-root extra
data (registered userdata metatables, shared pending-unref list) is carried in
the same state record.  Rust panics (assertion failures, aborts) are a
distinguished `panic` outcome, recoverable typed errors are `err`, and normal
returns are `ok`.

Host callbacks are referenced by numeric tokens; an environment `Nat → Callback`
resolves a token to the host closure when the callback protocol actually
invokes it.  This keeps every state value first-order and decidable.
-/

set_option maxRecDepth 10000

/-- The typed error enum of the crate (`error.rs`), restricted to the variants
reachable from the core module. -/
inductive LError where
  | toLuaConversionError (efrom eto : String) (message : Option String)
  | fromLuaConversionError (efrom eto : String) (message : Option String)
  | runtimeError (message : String)
  | mismatchedRegistryKey
  | recursiveMutCallback
  | callbackDestructed
  deriving DecidableEq

/-- Kinds of interpreter-side function objects appearing in this module: the
callback trampoline `callback_call_impl`, the combined index metamethod
`meta_index_impl`, the userdata finalizer `userdata_destructor`, pushed plain C
functions such as the pcall overrides, and compiled chunks. -/
inductive ClosKind where
  | callbackCall
  | metaIndex
  | udDestructor
  | cfun
  | chunk
  deriving DecidableEq

/-- Payload carried by an interpreter-side userdata object: either a boxed host
callback (identified by its token) or a host object (`RefCell<T>`, identified by
an opaque token). -/
inductive UDPayload where
  | cb (ftok : Nat)
  | obj (tok : Nat)
  deriving DecidableEq

/-- A userdata object: its (detachable) payload and its metatable, if set. -/
structure UD where
  payload : Option UDPayload
  mt : Option Nat
  deriving DecidableEq

/-- Raw interpreter values as they sit on the operand stack or in the registry.
Reference-typed values (string, table, function, thread, userdata) are ids into
the corresponding heaps of `LuaState`; a wrapped host error (`WrappedError`
userdata) is modelled as its own constructor. -/
inductive LValue where
  | nil
  | boolean (b : Bool)
  | lightuserdata (p : Nat)
  | integer (i : Int)
  | number (n : Int)
  | str (s : String)
  | table (id : Nat)
  | func (id : Nat)
  | thread (id : Nat)
  | userdata (id : Nat)
  | wrappedError (e : LError)
  deriving DecidableEq

/-- An interpreter-side closure object: its kind and its upvalues
(index 1 first). -/
structure ClosObj where
  kind : ClosKind
  upvalues : List LValue
  deriving DecidableEq

/-- Association list lookup (first match). -/
def alookup {κ β : Type} [DecidableEq κ] (l : List (κ × β)) (k : κ) : Option β :=
  match l with
  | [] => none
  | p :: t => if p.1 = k then some p.2 else alookup t k

/-- Remove every binding of a key from an association list. -/
def aremove {κ β : Type} [DecidableEq κ] (l : List (κ × β)) (k : κ) : List (κ × β) :=
  match l with
  | [] => []
  | p :: t => if p.1 = k then aremove t k else p :: aremove t k

/-- Insert or replace a binding in an association list. -/
def aset {κ β : Type} [DecidableEq κ] (l : List (κ × β)) (k : κ) (v : β) : List (κ × β) :=
  (k, v) :: aremove l k

/-- The whole interpreter state reachable from one root instance: the operand
stack of the state currently being operated on (head is the top of the stack),
the registry (integer slots from `luaL_ref`, string keys from named registry
values, light-userdata keys such as the function-metatable key), the object
heaps, and the contents of the `ExtraData` block attached to the main state
(`registered_userdata`, and the shared `registry_unref_list` together with the
identity of its `Arc` allocation). -/
structure LuaState where
  mainStateId : Nat
  stack : List LValue
  registryInt : List (Nat × LValue)
  registryStr : List (String × LValue)
  registryLud : List (Nat × LValue)
  nextRegistryId : Nat
  tables : List (Nat × List (LValue × LValue))
  threads : List (Nat × List LValue)
  closures : List (Nat × ClosObj)
  udstore : List (Nat × UD)
  nextObjId : Nat
  registeredUserdata : List (Nat × Nat)
  unrefListId : Nat
  unrefList : Option (List Nat)
  deriving DecidableEq

/-- Outcome of running one operation: normal return, typed recoverable error,
or a Rust panic / process abort (assertion failure). -/
inductive RunResult (α : Type) where
  | ok (a : α) (s : LuaState)
  | err (e : LError) (s : LuaState)
  | panic (msg : String)
  deriving DecidableEq

def RunResult.isOk {α : Type} : RunResult α → Bool
  | .ok _ _ => true
  | _ => false

def RunResult.isErr {α : Type} : RunResult α → Bool
  | .err _ _ => true
  | _ => false

def RunResult.isPanic {α : Type} : RunResult α → Bool
  | .panic _ => true
  | _ => false

/-- Stack length of the state carried by a successful outcome. -/
def okStackLen {α : Type} : RunResult α → Option Nat
  | .ok _ s => some s.stack.length
  | _ => none

/-- The state carried by a successful outcome. -/
def okState {α : Type} : RunResult α → Option LuaState
  | .ok _ s => some s
  | _ => none

/-- The value carried by a successful outcome. -/
def okVal {α : Type} : RunResult α → Option α
  | .ok a _ => some a
  | _ => none

/-- A state-threading operation on the interpreter. -/
def LuaM (α : Type) : Type := LuaState → RunResult α

def LuaM.pure {α : Type} (a : α) : LuaM α := fun s => .ok a s

def LuaM.bind {α β : Type} (m : LuaM α) (k : α → LuaM β) : LuaM β := fun s =>
  match m s with
  | .ok a s1 => k a s1
  | .err e s1 => .err e s1
  | .panic msg => .panic msg

instance : Monad LuaM where
  pure := LuaM.pure
  bind := LuaM.bind

def getState : LuaM LuaState := fun s => .ok s s

def modifyState (f : LuaState → LuaState) : LuaM Unit := fun s => .ok () (f s)

def throwL {α : Type} (e : LError) : LuaM α := fun s => .err e s

def panicL {α : Type} (msg : String) : LuaM α := fun _ => .panic msg

/-! ### Models of the Lua C API primitives used by the core module.

These are external FFI entry points (not part of this repository); each model
captures the stack/heap effect the core module relies on.  Out-of-memory never
occurs in the model, matching the custom allocator that aborts the process on
allocation failure instead of letting an allocation-bearing primitive fail. -/

/-- Current operand stack depth (`lua_gettop`). -/
def lua_gettop : LuaM Nat := fun s => .ok s.stack.length s

/-- Push a raw value onto the operand stack. -/
def pushRaw (v : LValue) : LuaM Unit :=
  modifyState fun s => { s with stack := v :: s.stack }

/-- Pop the top of the operand stack. -/
def popRaw : LuaM LValue := fun s =>
  match s.stack with
  | [] => .panic "pop from empty stack"
  | v :: t => .ok v { s with stack := t }

/-- Read the top of the operand stack without popping. -/
def peekTop : LuaM LValue := fun s =>
  match s.stack with
  | [] => .panic "peek on empty stack"
  | v :: _ => .ok v s

/-- Read the stack slot `i` positions below the top without popping. -/
def peekAt (i : Nat) : LuaM LValue := fun s =>
  match s.stack.get? i with
  | none => .panic "peek below the stack bottom"
  | some v => .ok v s

/-- `lua_pop`: drop the top `n` stack slots. -/
def lua_pop (n : Nat) : LuaM Unit :=
  modifyState fun s => { s with stack := s.stack.drop n }

/-- Truncate (or nil-extend) the stack to depth `n` (`lua_settop`). -/
def lua_settop_to (n : Nat) (s : LuaState) : LuaState :=
  if s.stack.length ≤ n then
    { s with stack := List.replicate (n - s.stack.length) LValue.nil ++ s.stack }
  else
    { s with stack := s.stack.drop (s.stack.length - n) }

/-- `lua_pushvalue(-1)`: duplicate the top stack slot. -/
def lua_pushvalue_m1 : LuaM Unit := do
  let v ← peekTop
  pushRaw v

/-- `luaL_checkstack`: the call-stack slot budget.  The model has unbounded
stack capacity, so the budget check always succeeds; the core still calls it
before every operation, as required by the guard contract. -/
def check_stack (_n : Nat) : LuaM Unit := LuaM.pure ()

/-- `check_stack_err`: fallible variant of the budget check; always succeeds in
the model. -/
def check_stack_err (_n : Nat) : LuaM Unit := LuaM.pure ()

/-- `lua_rawgeti(LUA_REGISTRYINDEX, id)`: push the value held in integer
registry slot `id` (nil when the slot is unused). -/
def rawgeti_registry (id : Nat) : LuaM Unit := do
  let s ← getState
  pushRaw ((alookup s.registryInt id).getD .nil)

/-- `luaL_ref(LUA_REGISTRYINDEX)`: pop the top of the stack into a fresh
integer registry slot and return the slot id. -/
def luaL_ref : LuaM Nat := fun s =>
  match s.stack with
  | [] => .panic "pop from empty stack"
  | v :: t =>
      .ok s.nextRegistryId
        { s with
          stack := t
          registryInt := aset s.registryInt s.nextRegistryId v
          nextRegistryId := s.nextRegistryId + 1 }

/-- `luaL_unref(LUA_REGISTRYINDEX, id)`: free integer registry slot `id`. -/
def luaL_unref (id : Nat) : LuaM Unit :=
  modifyState fun s => { s with registryInt := aremove s.registryInt id }

/-- `lua_rawset(LUA_REGISTRYINDEX)`: pop a value and a key and store the pair
raw in the registry table.  String keys are the named registry values, a
light-userdata key addresses slots such as the function metatable; storing nil
deletes the key.  The core never raw-sets other key types into the registry. -/
def rawset_registry : LuaM Unit := do
  let v ← popRaw
  let k ← popRaw
  match k with
  | .str name =>
      modifyState fun s =>
        { s with registryStr :=
            if v = .nil then aremove s.registryStr name else aset s.registryStr name v }
  | .lightuserdata p =>
      modifyState fun s =>
        { s with registryLud :=
            if v = .nil then aremove s.registryLud p else aset s.registryLud p v }
  | _ => panicL "unsupported registry key type in model"

/-- `lua_rawget(LUA_REGISTRYINDEX)`: pop a key and push the value stored raw
under it in the registry table. -/
def rawget_registry : LuaM Unit := do
  let k ← popRaw
  match k with
  | .str name => do
      let s ← getState
      pushRaw ((alookup s.registryStr name).getD .nil)
  | .lightuserdata p => do
      let s ← getState
      pushRaw ((alookup s.registryLud p).getD .nil)
  | _ => panicL "unsupported registry key type in model"

/-- `lua_newtable`: allocate a fresh empty table and push it. -/
def lua_newtable : LuaM Unit :=
  modifyState fun s =>
    { s with
      tables := aset s.tables s.nextObjId []
      nextObjId := s.nextObjId + 1
      stack := .table s.nextObjId :: s.stack }

/-- Update one field of a table object; assigning nil deletes the field. -/
def tableSet (tbls : List (Nat × List (LValue × LValue))) (tid : Nat) (k v : LValue) :
    List (Nat × List (LValue × LValue)) :=
  match alookup tbls tid with
  | some fields => aset tbls tid (if v = .nil then aremove fields k else aset fields k v)
  | none => tbls

/-- `lua_rawset(state, -3)`: pop a value and a key and store them raw into the
table that then sits on top of the stack. -/
def lua_rawset_m3 : LuaM Unit := do
  let v ← popRaw
  let k ← popRaw
  let t ← peekTop
  match t with
  | .table tid => modifyState fun s => { s with tables := tableSet s.tables tid k v }
  | _ => panicL "rawset on a non-table in model"

/-- `lua_gettable(state, -3)` as used while building the combined `__index`
handler: pop the key and push the raw field of the table two slots below. -/
def lua_gettable_m3 : LuaM Unit := do
  let k ← popRaw
  let t ← peekAt 1
  match t with
  | .table tid => do
      let s ← getState
      pushRaw (((alookup s.tables tid).getD []).lookup k |>.getD .nil)
  | _ => panicL "gettable on a non-table in model"

/-- `lua_newthread`: allocate a fresh thread with an empty stack, push the
thread object, and return its id (the new `lua_State` pointer). -/
def lua_newthread : LuaM Nat := fun s =>
  .ok s.nextObjId
    { s with
      threads := aset s.threads s.nextObjId []
      nextObjId := s.nextObjId + 1
      stack := .thread s.nextObjId :: s.stack }

/-- `lua_pushcclosure(f, n)`: pop `n` upvalues (top of stack is the last
upvalue) and push a fresh closure object over them. -/
def lua_pushcclosure (n : Nat) (kind : ClosKind) : LuaM Unit := fun s =>
  if n ≤ s.stack.length then
    .ok ()
      { s with
        closures := aset s.closures s.nextObjId ⟨kind, (s.stack.take n).reverse⟩
        nextObjId := s.nextObjId + 1
        stack := .func s.nextObjId :: s.stack.drop n }
  else .panic "pushcclosure with too few stack slots"

/-- `lua_pushcfunction`: push a C function (a closure with no upvalues). -/
def lua_pushcfunction (kind : ClosKind) : LuaM Unit := lua_pushcclosure 0 kind

/-- `lua_getupvalue(state, -1, 1)`: push the first upvalue of the closure on
top of the stack. -/
def lua_getupvalue_m1 : LuaM Unit := do
  let v ← peekTop
  match v with
  | .func cid => do
      let s ← getState
      match alookup s.closures cid with
      | some c =>
          match c.upvalues.get? 0 with
          | some u => pushRaw u
          | none => panicL "closure has no upvalue 1"
      | none => panicL "no such closure"
  | _ => panicL "getupvalue on a non-function"

/-- `lua_setupvalue(state, -2, 1)`: pop a value and install it as the first
upvalue of the closure that then sits on top of the stack. -/
def lua_setupvalue_m2 : LuaM Unit := do
  let v ← popRaw
  let f ← peekTop
  match f with
  | .func cid => do
      let s ← getState
      match alookup s.closures cid with
      | some c =>
          match c.upvalues with
          | _ :: rest =>
              modifyState fun s2 =>
                { s2 with closures := aset s2.closures cid ⟨c.kind, v :: rest⟩ }
          | [] => panicL "closure has no upvalue 1"
      | none => panicL "no such closure"
  | _ => panicL "setupvalue on a non-function"

/-- Allocate a userdata object carrying a host payload and push it
(the effect of `push_userdata`, modelled; `util.rs` is outside `src/`). -/
def push_userdata (p : UDPayload) : LuaM Unit :=
  modifyState fun s =>
    { s with
      udstore := aset s.udstore s.nextObjId ⟨some p, none⟩
      nextObjId := s.nextObjId + 1
      stack := .userdata s.nextObjId :: s.stack }

/-- `lua_setmetatable(state, -2)`: pop a table (or nil) and install it as the
metatable of the userdata below it. -/
def lua_setmetatable_m2 : LuaM Unit := do
  let mtv ← popRaw
  let u ← peekTop
  match u with
  | .userdata uid => do
      let s ← getState
      match alookup s.udstore uid with
      | some ud =>
          match mtv with
          | .table tid =>
              modifyState fun s2 =>
                { s2 with udstore := aset s2.udstore uid ⟨ud.payload, some tid⟩ }
          | .nil =>
              modifyState fun s2 =>
                { s2 with udstore := aset s2.udstore uid ⟨ud.payload, none⟩ }
          | _ => panicL "setmetatable with a non-table"
      | none => panicL "no such userdata"
  | _ => panicL "setmetatable target is not userdata in model"

/-- Borrow the host payload of a userdata value (`get_userdata`).  Modelled
from the spec: `util.rs` is outside `src/`; reading a detached payload is
undefined behaviour, modelled as a panic. -/
def get_userdata (v : LValue) : LuaM UDPayload := fun s =>
  match v with
  | .userdata uid =>
      match alookup s.udstore uid with
      | some ⟨some p, _⟩ => .ok p s
      | _ => .panic "userdata payload missing"
  | _ => .panic "get_userdata on a non-userdata"

/-- Modelled from the spec: `take_userdata` (`util.rs`, outside `src/`) pops
the userdata on top of the stack, detaches its payload (so later reads observe
an absent payload), and returns ownership of the payload to the host. -/
def take_userdata : LuaM UDPayload := do
  let v ← popRaw
  match v with
  | .userdata uid =>
      fun s =>
        match alookup s.udstore uid with
        | some ⟨some p, m⟩ =>
            .ok p { s with udstore := aset s.udstore uid ⟨none, m⟩ }
        | _ => .panic "userdata payload missing"
  | _ => panicL "take_userdata on a non-userdata"

/-- `main_state`: recover the main state from a raw callback state
(modelled; `util.rs` is outside `src/`). -/
def main_state : LuaM Nat := fun s => .ok s.mainStateId s

/-- Modelled from the spec (section 4.1): `stack_guard` (`util.rs`, outside
`src/`) records the stack depth, runs the operation, and asserts the depth is
restored on exit; a mismatch is a fatal internal-consistency failure (abort),
not an error return. -/
def stack_guard {α : Type} (m : LuaM α) : LuaM α := fun s =>
  match m s with
  | .ok a s1 =>
      if s1.stack.length = s.stack.length then .ok a s1
      else .panic "stack leak detected"
  | .err e s1 =>
      if s1.stack.length = s.stack.length then .err e s1
      else .panic "stack leak detected"
  | .panic msg => .panic msg

/-- Modelled from the spec (section 4.1): `stack_err_guard` (`util.rs`,
outside `src/`) asserts depth restoration on the success path and truncates the
stack back to the entry depth on the error path. -/
def stack_err_guard {α : Type} (m : LuaM α) : LuaM α := fun s =>
  match m s with
  | .ok a s1 =>
      if s1.stack.length = s.stack.length then .ok a s1
      else .panic "stack leak detected"
  | .err e s1 => .err e (lua_settop_to s.stack.length s1)
  | .panic msg => .panic msg

/-- Modelled from the spec (section 4.2): `protect_lua_call` (`util.rs`,
outside `src/`) runs an interpreter operation under the protected-call
primitive, consuming `nargs` stack slots and producing `nresults`.  Every
operation the core protects this way can only fail on allocation, which aborts
instead, so the protected run is the operation itself. -/
def protect_lua_call {α : Type} (_nargs _nresults : Nat) (f : LuaM α) : LuaM α := f

/-- `gc_guard` (`util.rs`, outside `src/`): runs an allocating operation with
the collector paused; no observable state effect beyond the operation. -/
def gc_guard {α : Type} (m : LuaM α) : LuaM α := m

/-- `push_string` (`util.rs`, outside `src/`): push a host string slice as an
interned interpreter string, under protection. -/
def push_string (str : String) : LuaM Unit :=
  protect_lua_call 0 1 (pushRaw (.str str))

/-- Modelled from the spec (section 4.2): `pop_error` (`util.rs`, outside
`src/`) pops the error value left by a failed protected call and converts it
into the typed host error. -/
def pop_error : LuaM LError := do
  let v ← popRaw
  match v with
  | .wrappedError e => LuaM.pure e
  | .str m => LuaM.pure (.runtimeError m)
  | _ => LuaM.pure (.runtimeError "unknown interpreter error")

/-- Model of `luaL_loadbuffer`, the external compiler entry point: compiles the
source text into a fresh chunk closure, pushes it, and reports `LUA_OK` (0).
Compilation failures are internal to the interpreter and are not modelled; the
wrapper code path for a failing status remains in the translated functions. -/
def luaL_loadbuffer (_source : String) (_chunkname : Option String) : LuaM Nat := fun s =>
  .ok 0
    { s with
      closures := aset s.closures s.nextObjId ⟨.chunk, []⟩
      nextObjId := s.nextObjId + 1
      stack := .func s.nextObjId :: s.stack }

/-! ### The core module types (`src/lua.rs` and its companion handle types). -/

/-- The top level `Lua` struct: the identity of the main (root) state it is
derived from, and whether it is an ephemeral handle reconstructed inside a
callback.  The `state` pointer is the `LuaState` being threaded. -/
structure Lua where
  mainState : Nat
  ephemeral : Bool
  deriving DecidableEq

/-- `LuaRef` (`types.rs`): an owned reference pinning one registry slot.  It
records the owning main state identity (`lua.main_state` of the creating
instance), the registry slot id, and whether dropping the reference should
release the slot. -/
structure LuaRef where
  mainState : Nat
  registry_id : Nat
  drop_unref : Bool
  deriving DecidableEq

/-- `RegistryKey` (`types.rs`): a durable registry handle; carries the registry
slot id, the identity of the `Arc` of the shared unref list it was minted
against, and the deferred-release flag. -/
structure RegistryKey where
  registry_id : Nat
  unrefListId : Nat
  drop_unref : Bool
  deriving DecidableEq

/-- Thin handle wrappers over `LuaRef` (the `String`, `Table`, `Function`,
`Thread`, `AnyUserData` types of the crate). -/
structure LString where
  r : LuaRef
  deriving DecidableEq

structure LTable where
  r : LuaRef
  deriving DecidableEq

structure LFunction where
  r : LuaRef
  deriving DecidableEq

structure LThread where
  r : LuaRef
  deriving DecidableEq

structure AnyUserData where
  r : LuaRef
  deriving DecidableEq

/-- The host-side `Value` enum (`value.rs`): scalar variants carry their data,
reference variants carry the handle wrapper (an owned `LuaRef`), and `Error`
carries a typed host error. -/
inductive Value where
  | nil
  | boolean (b : Bool)
  | lightuserdata (p : Nat)
  | integer (i : Int)
  | number (n : Int)
  | vstr (r : LuaRef)
  | vtable (r : LuaRef)
  | vfunction (r : LuaRef)
  | vthread (r : LuaRef)
  | vuserdata (r : LuaRef)
  | verror (e : LError)
  deriving DecidableEq

/-- `Value::type_name` (`value.rs`, outside `src/`): the source-type label used
in conversion errors. -/
def Value.type_name : Value → String
  | .nil => "nil"
  | .boolean _ => "boolean"
  | .lightuserdata _ => "light userdata"
  | .integer _ => "integer"
  | .number _ => "number"
  | .vstr _ => "string"
  | .vtable _ => "table"
  | .vfunction _ => "function"
  | .vthread _ => "thread"
  | .vuserdata _ => "userdata"
  | .verror _ => "error"

/-- A host callback: consumes the marshalled argument values and either
produces result values or a typed error.  (The `&Lua` handle the real callback
also receives is not needed by any modelled closure.) -/
def Callback : Type := List Value → Except LError (List Value)

/-- Which state a push is directed at: the state the operation runs on, or the
stack of a freshly created thread. -/
inductive PushTarget where
  | cur
  | thrd (tid : Nat)
  deriving DecidableEq

/-- Push a raw value onto the chosen stack. -/
def pushTargeted (t : PushTarget) (v : LValue) : LuaM Unit :=
  match t with
  | .cur => pushRaw v
  | .thrd tid =>
      modifyState fun s =>
        { s with threads := aset s.threads tid (v :: (alookup s.threads tid).getD []) }

/-- `Lua::push_ref` (lines 725-736): pushes a previously pinned value back onto
a given stack.  The owning-root check is an `assert!`: a mismatch is an
assertion failure (process panic) carrying the source message, after which
`lua_rawgeti` pushes the pinned registry slot. -/
def push_ref (lua : Lua) (target : PushTarget) (lref : LuaRef) : LuaM Unit := fun s =>
  if lref.mainState = lua.mainState then
    (pushTargeted target ((alookup s.registryInt lref.registry_id).getD .nil)) s
  else
    .panic "Lua instance passed Value created from a different Lua"

/-- `Lua::pop_ref` (lines 745-752): pop the top of the stack into a fresh
registry slot, pinning it, and return the owned reference. -/
def pop_ref (lua : Lua) : LuaM LuaRef := do
  let id ← gc_guard luaL_ref
  LuaM.pure ⟨lua.mainState, id, true⟩

/-- `Lua::push_value` (lines 623-669): push a host `Value` onto the current
stack; reference variants go through `push_ref`, a host error is pushed as a
wrapped-error userdata. -/
def push_value (lua : Lua) (v : Value) : LuaM Unit :=
  match v with
  | .nil => pushRaw .nil
  | .boolean b => pushRaw (.boolean b)
  | .lightuserdata p => pushRaw (.lightuserdata p)
  | .integer i => pushRaw (.integer i)
  | .number n => pushRaw (.number n)
  | .vstr r => push_ref lua .cur r
  | .vtable r => push_ref lua .cur r
  | .vfunction r => push_ref lua .cur r
  | .vthread r => push_ref lua .cur r
  | .vuserdata r => push_ref lua .cur r
  | .verror e => pushRaw (.wrappedError e)

/-- `Lua::pop_value` (lines 672-722): pop the top of the stack into a host
`Value`; reference-typed values are pinned via `pop_ref`, a wrapped-error
userdata is unwrapped into `Value::Error`. -/
def pop_value (lua : Lua) : LuaM Value := do
  let v ← peekTop
  match v with
  | .nil => do
      let _ ← popRaw
      LuaM.pure .nil
  | .boolean b => do
      let _ ← popRaw
      LuaM.pure (.boolean b)
  | .lightuserdata p => do
      let _ ← popRaw
      LuaM.pure (.lightuserdata p)
  | .integer i => do
      let _ ← popRaw
      LuaM.pure (.integer i)
  | .number n => do
      let _ ← popRaw
      LuaM.pure (.number n)
  | .str _ => do
      let r ← pop_ref lua
      LuaM.pure (.vstr r)
  | .table _ => do
      let r ← pop_ref lua
      LuaM.pure (.vtable r)
  | .func _ => do
      let r ← pop_ref lua
      LuaM.pure (.vfunction r)
  | .thread _ => do
      let r ← pop_ref lua
      LuaM.pure (.vthread r)
  | .userdata _ => do
      let r ← pop_ref lua
      LuaM.pure (.vuserdata r)
  | .wrappedError e => do
      let _ ← popRaw
      LuaM.pure (.verror e)

/-! ### Top-level typed API operations of `Lua` (`src/lua.rs`). -/

/-- The NUL character that makes `CString::new` fail. -/
def nulChar : Char := Char.ofNat 0

/-- Whether a chunk name contains a NUL byte (the `CString::new` failure
condition). -/
def containsNul (n : String) : Bool := n.toList.contains nulChar

/-- The `Display` rendering of `std::ffi::NulError` for a given input. -/
def nulErrMessage (n : String) : String :=
  "nul byte found in provided data at position: " ++
    toString (n.toList.findIdx fun c => c = nulChar)

/-- `CString::new(name)` as used by `Lua::load`: fails on an interior NUL
byte with the conversion error built at lines 95-99. -/
def cstringNew (name : String) : Except LError String :=
  if containsNul name then
    .error (.toLuaConversionError "&str" "string" (some (nulErrMessage name)))
  else .ok name

/-- `Lua::load` (lines 88-119): load a chunk, naming it when a name is given;
a NUL in the name surfaces as a `ToLuaConversionError` before the loader runs;
on `LUA_OK` the compiled chunk is pinned and returned. -/
def Lua.load (lua : Lua) (source : String) (name : Option String) : LuaM LFunction :=
  stack_err_guard do
    check_stack 1
    let code ←
      match name with
      | some n =>
          match cstringNew n with
          | .error e => throwL e
          | .ok cn => luaL_loadbuffer source (some cn)
      | none => luaL_loadbuffer source none
    if code = 0 then do
      let r ← pop_ref lua
      LuaM.pure (LFunction.mk r)
    else do
      let e ← pop_error
      throwL e

/-- `Lua::create_string` (lines 153-161). -/
def Lua.create_string (lua : Lua) (str : String) : LuaM LString :=
  stack_err_guard do
    check_stack 4
    push_string str
    let r ← pop_ref lua
    LuaM.pure (LString.mk r)

/-- `Lua::create_table` (lines 164-174). -/
def Lua.create_table (lua : Lua) : LuaM LTable :=
  stack_err_guard do
    check_stack 4
    protect_lua_call 0 1 lua_newtable
    let r ← pop_ref lua
    LuaM.pure (LTable.mk r)

/-- The `for (k, v) in cont` loop of `Lua::create_table_from`
(lines 190-196). -/
def tableFromLoop (lua : Lua) (pairs : List (Value × Value)) : LuaM Unit :=
  match pairs with
  | [] => LuaM.pure ()
  | (k, v) :: rest => do
      push_value lua k
      push_value lua v
      protect_lua_call 3 1 lua_rawset_m3
      tableFromLoop lua rest

/-- `Lua::create_table_from` (lines 177-200); the `ToLua` conversions of the
iterator items are the identity at `Value`. -/
def Lua.create_table_from (lua : Lua) (pairs : List (Value × Value)) : LuaM LTable :=
  stack_err_guard do
    check_stack 6
    protect_lua_call 0 1 lua_newtable
    tableFromLoop lua pairs
    let r ← pop_ref lua
    LuaM.pure (LTable.mk r)

/-- `Lua::create_thread` (lines 302-314): wrap a function into a new
coroutine; the function is pushed onto the new thread stack. -/
def Lua.create_thread (lua : Lua) (f : LFunction) : LuaM LThread :=
  stack_err_guard do
    check_stack 2
    let tid ← protect_lua_call 0 1 lua_newthread
    push_ref lua (.thrd tid) f.r
    let r ← pop_ref lua
    LuaM.pure (LThread.mk r)

/-- Registry slot of the globals table (`LUA_RIDX_GLOBALS`). -/
def LUA_RIDX_GLOBALS : Nat := 2

/-- `Lua::globals` (lines 325-333). -/
def Lua.globals (lua : Lua) : LuaM LTable :=
  stack_guard do
    check_stack 2
    rawgeti_registry LUA_RIDX_GLOBALS
    let r ← pop_ref lua
    LuaM.pure (LTable.mk r)

/-- `lua_tostring(state, -1)`: convert the value on top of the stack to a
string in place when it is a string or a number, reporting NULL otherwise. -/
def lua_tostring_m1 : LuaM Bool := do
  let v ← peekTop
  match v with
  | .str _ => LuaM.pure true
  | .integer i => do
      let _ ← popRaw
      pushRaw (.str (toString i))
      LuaM.pure true
  | .number n => do
      let _ ← popRaw
      pushRaw (.str (toString n))
      LuaM.pure true
  | _ => LuaM.pure false

/-- `Lua::coerce_string` (lines 369-392). -/
def Lua.coerce_string (lua : Lua) (v : Value) : LuaM LString :=
  match v with
  | .vstr r => LuaM.pure (LString.mk r)
  | v =>
      stack_err_guard do
        check_stack 4
        let ty := v.type_name
        push_value lua v
        let notNull ← protect_lua_call 1 1 lua_tostring_m1
        if notNull then do
          let r ← pop_ref lua
          LuaM.pure (LString.mk r)
        else do
          lua_pop 1
          throwL (.fromLuaConversionError ty "String" (some "expected string or number"))

/-- `lua_tointegerx`: integer coercion of a raw value.  Model: integers and
(integral, by construction) numbers convert; other values do not. -/
def lua_tointegerx (v : LValue) : Option Int :=
  match v with
  | .integer i => some i
  | .number n => some n
  | _ => none

/-- `Lua::coerce_integer` (lines 398-421). -/
def Lua.coerce_integer (lua : Lua) (v : Value) : LuaM Int :=
  match v with
  | .integer i => LuaM.pure i
  | v =>
      stack_guard do
        check_stack 2
        let ty := v.type_name
        push_value lua v
        let t ← peekTop
        let res := lua_tointegerx t
        lua_pop 1
        match res with
        | none => throwL (.fromLuaConversionError ty "integer" none)
        | some i => LuaM.pure i

/-- `lua_tonumberx`: number coercion of a raw value in the model. -/
def lua_tonumberx (v : LValue) : Option Int :=
  match v with
  | .number n => some n
  | .integer i => some i
  | _ => none

/-- `Lua::coerce_number` (lines 427-450). -/
def Lua.coerce_number (lua : Lua) (v : Value) : LuaM Int :=
  match v with
  | .number n => LuaM.pure n
  | v =>
      stack_guard do
        check_stack 2
        let ty := v.type_name
        push_value lua v
        let t ← peekTop
        let res := lua_tonumberx t
        lua_pop 1
        match res with
        | none =>
            throwL (.fromLuaConversionError ty "number"
              (some "number or string coercible to number"))
        | some n => LuaM.pure n

/-- `Lua::set_named_registry_value` (lines 479-496); the `ToLua` conversion of
the stored value is the identity at `Value`. -/
def Lua.set_named_registry_value (lua : Lua) (name : String) (t : Value) : LuaM Unit :=
  stack_err_guard do
    check_stack 5
    push_string name
    push_value lua t
    protect_lua_call 2 0 rawset_registry

/-- `Lua::named_registry_value` (lines 504-517); the `FromLua` conversion of
the result is the identity at `Value`. -/
def Lua.named_registry_value (lua : Lua) (name : String) : LuaM Value :=
  stack_err_guard do
    check_stack 4
    push_string name
    protect_lua_call 1 1 rawget_registry
    pop_value lua

/-- `Lua::unset_named_registry_value` (lines 524-526). -/
def Lua.unset_named_registry_value (lua : Lua) (name : String) : LuaM Unit :=
  lua.set_named_registry_value name .nil

/-- `Lua::create_registry_value` (lines 532-549): pin a value into a fresh
slot and mint a durable key tagged with the shared unref-list identity. -/
def Lua.create_registry_value (lua : Lua) (t : Value) : LuaM RegistryKey :=
  stack_guard do
    check_stack 2
    push_value lua t
    let registry_id ← gc_guard luaL_ref
    let s ← getState
    LuaM.pure ⟨registry_id, s.unrefListId, true⟩

/-- `Lua::registry_value` (lines 557-573): the ownership check compares the
`Arc` identity of the unref list before touching the stack; the `FromLua`
conversion of the result is the identity at `Value`. -/
def Lua.registry_value (lua : Lua) (key : RegistryKey) : LuaM Value := fun s =>
  if ¬ (key.unrefListId = s.unrefListId) then .err .mismatchedRegistryKey s
  else
    (stack_err_guard do
      check_stack 2
      rawgeti_registry key.registry_id
      pop_value lua) s

/-- Modelled from the spec (section 4.5): `RegistryKey::drop` (`types.rs`,
outside `src/`) pushes the slot id onto the shared unref list it was minted
against when the deferred-release flag is still set; within the single modelled
root it only affects states sharing that list identity, and a torn-down (None)
list receives nothing. -/
def registryKeyDrop (key : RegistryKey) (s : LuaState) : LuaState :=
  if key.drop_unref ∧ key.unrefListId = s.unrefListId then
    { s with unrefList :=
        match s.unrefList with
        | some l => some (l ++ [key.registry_id])
        | none => none }
  else s

/-- `Lua::remove_registry_value` (lines 584-594): on a matching key the slot is
released synchronously and the key drop flag is cleared before the key is
consumed; a mismatched key yields the dedicated error (and its later drop
targets its own foreign list, not this root). -/
def Lua.remove_registry_value (_lua : Lua) (key : RegistryKey) : LuaM Unit := fun s =>
  if ¬ (key.unrefListId = s.unrefListId) then
    .err .mismatchedRegistryKey (registryKeyDrop key s)
  else
    (do
      luaL_unref key.registry_id
      modifyState (registryKeyDrop { key with drop_unref := false })) s

/-- `Lua::owns_registry_value` (lines 602-604). -/
def Lua.owns_registry_value (key : RegistryKey) (s : LuaState) : Bool :=
  key.unrefListId = s.unrefListId

/-- The `for id in unref_list` release loop of `Lua::expire_registry_values`
(lines 616-618). -/
def unrefLoop (ids : List Nat) : LuaM Unit :=
  match ids with
  | [] => LuaM.pure ()
  | id :: rest => do
      luaL_unref id
      unrefLoop rest

/-- `Lua::expire_registry_values` (lines 610-620): swap the pending list for a
fresh empty one, then unref every drained id; the `unwrap` of a torn-down
(None) list is a panic. -/
def Lua.expire_registry_values (_lua : Lua) : LuaM Unit := fun s =>
  match s.unrefList with
  | none => .panic "unwrap of a torn-down registry unref list"
  | some ids => (unrefLoop ids) { s with unrefList := some [] }

/-! ### Callback creation and the callback invocation protocol. -/

/-- The light-userdata registry key under which the shared metatable for
callback-carrier userdata is stored (`FUNCTION_METATABLE_REGISTRY_KEY`,
line 1199). -/
def FUNCTION_METATABLE_REGISTRY_KEY : Nat := 0

/-- `Lua::create_callback_function` (lines 990-1048, creation path): box the
host closure (identified by its token) into a carrier userdata, give it the
function metatable, wrap it as the single upvalue of a `callback_call_impl`
closure, and pin the closure.  The registry slot released by dropping the
temporary would-be handles is managed by `LuaRef::drop` (`types.rs`, outside
`src/`) and is not modelled. -/
def Lua.create_callback_function (lua : Lua) (ftok : Nat) : LuaM LFunction :=
  stack_err_guard do
    check_stack 2
    push_userdata (.cb ftok)
    pushRaw (.lightuserdata FUNCTION_METATABLE_REGISTRY_KEY)
    rawget_registry
    lua_setmetatable_m2
    protect_lua_call 1 1 (lua_pushcclosure 1 .callbackCall)
    let r ← pop_ref lua
    LuaM.pure (LFunction.mk r)

/-- `Lua::create_function` (lines 266-275): the conversion-adapter wrapper
around `create_callback_function`; at `Value` the argument/result conversions
are the identity, so the registered closure is the token itself. -/
def Lua.create_function (lua : Lua) (ftok : Nat) : LuaM LFunction :=
  lua.create_callback_function ftok

/-- First upvalue of a closure, as `lua_type(state, lua_upvalueindex(1))`
observes it (nil when absent). -/
def getUpvalue1 (cid : Nat) : LuaM LValue := fun s =>
  match alookup s.closures cid with
  | some c => .ok ((c.upvalues.get? 0).getD .nil) s
  | none => .panic "no such closure"

/-- `callback_error` (`util.rs`, outside `src/`), modelled from the spec
(section 4.6): a host-side `Err` is translated into the error-raising
mechanism of the interpreter; the raised error is the `err` outcome itself. -/
def callback_error (m : LuaM Int) : LuaM Int := m

/-- The argument-draining loop of `callback_call_impl` (lines 1011-1013):
pop each caller-supplied argument and prepend it, yielding left-to-right call
order. -/
def popValueLoop (lua : Lua) (n : Nat) (args : List Value) : LuaM (List Value) :=
  match n with
  | 0 => LuaM.pure args
  | n + 1 => do
      let v ← pop_value lua
      popValueLoop lua n (v :: args)

/-- The result-pushing loop of `callback_call_impl` (lines 1020-1022). -/
def pushResultsLoop (lua : Lua) (rs : List Value) : LuaM Unit :=
  match rs with
  | [] => LuaM.pure ()
  | r :: rest => do
      push_value lua r
      pushResultsLoop lua rest

/-- `callback_call_impl` (lines 994-1026): the per-invocation protocol of a
callback closure `cid`.  An ephemeral instance is reconstructed; the sentinel
first upvalue is checked for nil (scope invalidation) before the payload is
read; then the payload callback (resolved through the host environment `env`)
is invoked on the drained arguments and its results are pushed back. -/
def callback_call_impl (env : Nat → Callback) (cid : Nat) : LuaM Int :=
  callback_error do
    let ms ← main_state
    let lua : Lua := ⟨ms, true⟩
    let upv ← getUpvalue1 cid
    if upv = LValue.nil then throwL .callbackDestructed
    else do
      let fp ← get_userdata upv
      match fp with
      | .obj _ => panicL "callback carrier holds a non-callback payload"
      | .cb ftok => do
          let nargs ← lua_gettop
          check_stack 2
          let args ← popValueLoop lua nargs []
          match env ftok args with
          | .error e => throwL e
          | .ok results => do
              check_stack_err results.length
              pushResultsLoop lua results
              LuaM.pure (Int.ofNat results.length)

/-- The borrow state of the `RefCell` that `create_function_mut` wraps its
closure in. -/
structure MutCell where
  borrowed : Bool
  deriving DecidableEq

/-- `RefCell::try_borrow_mut`: fails exactly while an outer mutable borrow is
live. -/
def try_borrow_mut (c : MutCell) : Option MutCell :=
  if c.borrowed then none else some ⟨true⟩

/-- The closure body registered by `Lua::create_function_mut` (lines 283-297)
and, with identical text, by `Scope::create_function_mut` (lines 1134-1148):
attempt the mutable borrow, report `RecursiveMutCallback` if an invocation is
already live, otherwise run the wrapped `FnMut` and release the borrow. -/
def create_function_mut_body (inner : Callback) (c : MutCell) (args : List Value) :
    Except LError (List Value) × MutCell :=
  match try_borrow_mut c with
  | none => (.error .recursiveMutCallback, c)
  | some _ => (inner args, ⟨false⟩)

/-- The host callback that `create_function_mut` registers, as a function of
the current borrow state of its cell. -/
def mutCallback (inner : Callback) (c : MutCell) : Callback :=
  fun args => (create_function_mut_body inner c args).1

/-! ### Userdata metatable synthesis and userdata creation. -/

/-- The `MetaMethod` enum (`userdata.rs`, outside `src/`): the fixed set of
recognized operator-overload kinds. -/
inductive MetaMethod where
  | Add
  | Sub
  | Mul
  | Div
  | Mod
  | Pow
  | Unm
  | IDiv
  | BAnd
  | BOr
  | BXor
  | BNot
  | Shl
  | Shr
  | Concat
  | Len
  | Eq
  | Lt
  | Le
  | Index
  | NewIndex
  | Call
  | ToString
  deriving DecidableEq

/-- The metamethod slot-name match of `Lua::userdata_metatable`
(lines 834-858). -/
def metamethod_name (k : MetaMethod) : String :=
  match k with
  | .Add => "__add"
  | .Sub => "__sub"
  | .Mul => "__mul"
  | .Div => "__div"
  | .Mod => "__mod"
  | .Pow => "__pow"
  | .Unm => "__unm"
  | .IDiv => "__idiv"
  | .BAnd => "__band"
  | .BOr => "__bor"
  | .BXor => "__bxor"
  | .BNot => "__bnot"
  | .Shl => "__shl"
  | .Shr => "__shr"
  | .Concat => "__concat"
  | .Len => "__len"
  | .Eq => "__eq"
  | .Lt => "__lt"
  | .Le => "__le"
  | .Index => "__index"
  | .NewIndex => "__newindex"
  | .Call => "__call"
  | .ToString => "__tostring"

/-- A host type exposed as userdata: its `TypeId` and the method and
metamethod tables that its `UserData::add_methods` implementation registers
(callbacks identified by tokens). -/
structure UserDataT where
  typeId : Nat
  methods : List (String × Nat)
  meta_methods : List (MetaMethod × Nat)
  deriving DecidableEq

/-- The `for (k, m) in methods.methods` loop of `Lua::userdata_metatable`
(lines 801-810): fill the methods subtable. -/
def methodsLoop (lua : Lua) (ms : List (String × Nat)) : LuaM Unit :=
  match ms with
  | [] => LuaM.pure ()
  | (k, m) :: rest => do
      push_string k
      let f ← lua.create_callback_function m
      push_value lua (.vfunction f.r)
      protect_lua_call 3 1 lua_rawset_m3
      methodsLoop lua rest

/-- The `if has_methods` block of `Lua::userdata_metatable` (lines 795-815):
build the name-to-callback subtable and install it under `__index`. -/
def setMethodsTable (lua : Lua) (has_methods : Bool) (ms : List (String × Nat)) :
    LuaM Unit :=
  if has_methods then do
    push_string "__index"
    protect_lua_call 0 1 lua_newtable
    methodsLoop lua ms
    protect_lua_call 3 1 lua_rawset_m3
  else LuaM.pure ()

/-- The `for (k, m) in methods.meta_methods` loop of `Lua::userdata_metatable`
(lines 817-868), including the combined `__index` special case. -/
def metaMethodsLoop (lua : Lua) (has_methods : Bool) (ms : List (MetaMethod × Nat)) :
    LuaM Unit :=
  match ms with
  | [] => LuaM.pure ()
  | (k, m) :: rest => do
      if k = MetaMethod.Index ∧ has_methods = true then do
        push_string "__index"
        lua_pushvalue_m1
        lua_gettable_m3
        let f ← lua.create_callback_function m
        push_value lua (.vfunction f.r)
        protect_lua_call 2 1 (lua_pushcclosure 2 .metaIndex)
        protect_lua_call 3 1 lua_rawset_m3
      else do
        push_string (metamethod_name k)
        let f ← lua.create_callback_function m
        push_value lua (.vfunction f.r)
        protect_lua_call 3 1 lua_rawset_m3
      metaMethodsLoop lua has_methods rest

/-- `Lua::userdata_metatable` (lines 754-890): return the cached dispatch-table
slot for the type when one is registered; otherwise build the metatable (the
methods subtable and index handler, the operator-overload slots, the `__gc`
finalizer, the `__metatable` protection marker), pin it into the registry, and
cache the slot id under the `TypeId` in the per-root extra data. -/
def Lua.userdata_metatable (lua : Lua) (t : UserDataT) : LuaM Nat :=
  stack_err_guard do
    check_stack 5
    let s ← getState
    match alookup s.registeredUserdata t.typeId with
    | some table_id => LuaM.pure table_id
    | none => do
        protect_lua_call 0 1 lua_newtable
        let has_methods := !t.methods.isEmpty
        setMethodsTable lua has_methods t.methods
        metaMethodsLoop lua has_methods t.meta_methods
        push_string "__gc"
        lua_pushcfunction .udDestructor
        protect_lua_call 3 1 lua_rawset_m3
        push_string "__metatable"
        pushRaw (.boolean false)
        protect_lua_call 3 1 lua_rawset_m3
        let id ← gc_guard luaL_ref
        modifyState fun s2 =>
          { s2 with registeredUserdata := aset s2.registeredUserdata t.typeId id }
        LuaM.pure id

/-- `Lua::do_create_userdata` (lines 1050-1071): box the host object into a
userdata, install the (possibly freshly synthesized) dispatch table as its
metatable, and pin it. -/
def Lua.do_create_userdata (lua : Lua) (t : UserDataT) (tok : Nat) : LuaM AnyUserData :=
  stack_err_guard do
    check_stack 3
    push_userdata (.obj tok)
    let mtid ← lua.userdata_metatable t
    rawgeti_registry mtid
    lua_setmetatable_m2
    let r ← pop_ref lua
    LuaM.pure (AnyUserData.mk r)

/-- `Lua::create_userdata` (lines 317-322). -/
def Lua.create_userdata (lua : Lua) (t : UserDataT) (tok : Nat) : LuaM AnyUserData :=
  lua.do_create_userdata t tok

/-! ### Scoped lifetime extension (`Scope`, lines 1078-1197). -/

/-- One registration held by a scope: the registry slot of a scoped callback
closure or of a scoped userdata (the data each boxed destructor closure
captures). -/
inductive ScopeItem where
  | scopedFn (registry_id : Nat)
  | scopedUd (registry_id : Nat)
  deriving DecidableEq

def ScopeItem.rid : ScopeItem → Nat
  | .scopedFn registry_id => registry_id
  | .scopedUd registry_id => registry_id

/-- The destructor closure pushed by `Scope::create_function`
(lines 1102-1122): re-acquire the closure from its slot, free the slot, pull
the carrier userdata out of the sentinel upvalue, detach its payload, nil the
upvalue, and hand the payload back. -/
def scopedFnDestructor (registry_id : Nat) : LuaM UDPayload :=
  stack_guard do
    check_stack 2
    rawgeti_registry registry_id
    luaL_unref registry_id
    lua_getupvalue_m1
    let ud ← take_userdata
    pushRaw .nil
    lua_setupvalue_m2
    lua_pop 1
    LuaM.pure ud

/-- The destructor closure pushed by `Scope::create_userdata`
(lines 1166-1177): re-acquire the userdata from its slot, free the slot, and
detach the payload. -/
def scopedUdDestructor (registry_id : Nat) : LuaM UDPayload :=
  stack_guard do
    check_stack 1
    rawgeti_registry registry_id
    luaL_unref registry_id
    take_userdata

/-- Run the boxed destructor of one registration. -/
def run_destructor : ScopeItem → LuaM UDPayload
  | .scopedFn registry_id => scopedFnDestructor registry_id
  | .scopedUd registry_id => scopedUdDestructor registry_id

/-- `Scope::create_function` (lines 1086-1125): register a scope-bounded
callback; its reference is marked externally invalidated (`drop_unref =
false`) and an invalidation action for its slot is appended to the scope
destructor list. -/
def Scope.create_function (lua : Lua) (items : List ScopeItem) (ftok : Nat) :
    LuaM (LFunction × List ScopeItem) := do
  let f ← lua.create_callback_function ftok
  let f2 := LFunction.mk ⟨f.r.mainState, f.r.registry_id, false⟩
  LuaM.pure (f2, items ++ [.scopedFn f2.r.registry_id])

/-- `Scope::create_userdata` (lines 1157-1180): register a scope-bounded
userdata the same way. -/
def Scope.create_userdata (lua : Lua) (items : List ScopeItem) (t : UserDataT)
    (tok : Nat) : LuaM (AnyUserData × List ScopeItem) := do
  let u ← lua.do_create_userdata t tok
  let u2 := AnyUserData.mk ⟨u.r.mainState, u.r.registry_id, false⟩
  LuaM.pure (u2, items ++ [.scopedUd u2.r.registry_id])

/-- The drain-and-collect phase of `Scope::drop` (lines 1190-1194): run every
invalidation action in registration order, collecting every detached payload
before any payload is dropped. -/
def scopeDropLoop (items : List ScopeItem) : LuaM (List UDPayload) :=
  match items with
  | [] => LuaM.pure []
  | it :: rest => do
      let p ← run_destructor it
      let ps ← scopeDropLoop rest
      LuaM.pure (p :: ps)

/-- `Scope::drop` (lines 1183-1196): phase one drains the destructor list and
collects the detached payloads; phase two (the `drop(to_drop)` of the collected
vector) then runs the payload destructors. -/
def Scope.drop (items : List ScopeItem) : LuaM (List UDPayload) :=
  scopeDropLoop items

/-- Observable events at scope exit: unlinking of a registered slot
(phase one), and the destructor of a detached payload (phase two). -/
inductive ScopeEvent where
  | unlink (registry_id : Nat)
  | dtor (p : UDPayload)
  deriving DecidableEq

/-- The event order realized by `Scope::drop`: because the destructor list is
drained and collected into a vector before that vector is dropped, every
unlink event (in registration order) precedes every payload-destructor
event. -/
def Scope.dropTrace (items : List ScopeItem) (payloads : List UDPayload) :
    List ScopeEvent :=
  (items.map fun it => .unlink it.rid) ++ payloads.map .dtor

/-! ### Auxiliary notions used by the statements of the verified properties. -/

/-- Raw values whose marshalling does not pin a registry slot. -/
def isScalarRaw : LValue → Bool
  | .nil => true
  | .boolean _ => true
  | .lightuserdata _ => true
  | .integer _ => true
  | .number _ => true
  | _ => false

/-- The host value a scalar raw value marshals to. -/
def rawToHostScalar : LValue → Value
  | .boolean b => .boolean b
  | .lightuserdata p => .lightuserdata p
  | .integer i => .integer i
  | .number n => .number n
  | _ => .nil

/-- Host values whose pushing does not consult the registry. -/
def isScalarVal : Value → Bool
  | .nil => true
  | .boolean _ => true
  | .lightuserdata _ => true
  | .integer _ => true
  | .number _ => true
  | _ => false

/-- The raw value a scalar host value pushes. -/
def hostToRawScalar : Value → LValue
  | .boolean b => .boolean b
  | .lightuserdata p => .lightuserdata p
  | .integer i => .integer i
  | .number n => .number n
  | _ => .nil

/-- Remove a batch of integer registry slots, in order (the net registry effect
of the release loop of `expire_registry_values`). -/
def removeAll (ids : List Nat) (l : List (Nat × LValue)) : List (Nat × LValue) :=
  match ids with
  | [] => l
  | id :: rest => removeAll rest (aremove l id)

/-- Description of one scope registration together with the interpreter-side
objects backing it: a scoped callback occupies registry slot `rid` holding
closure `cid` whose sentinel upvalue carries userdata `uid` with callback
payload `ftok`; a scoped userdata occupies registry slot `rid` holding
userdata `uid` with object payload `tok`. -/
inductive RegDesc where
  | fnReg (rid cid uid ftok : Nat) (restUps : List LValue) (mtv : Option Nat)
  | udReg (rid uid tok : Nat) (mtv : Option Nat)
  deriving DecidableEq

def RegDesc.rid : RegDesc → Nat
  | .fnReg rid _ _ _ _ _ => rid
  | .udReg rid _ _ _ => rid

def RegDesc.uid : RegDesc → Nat
  | .fnReg _ _ uid _ _ _ => uid
  | .udReg _ uid _ _ => uid

/-- The closure id a registration owns, when it is a scoped callback. -/
def RegDesc.cidOf : RegDesc → Option Nat
  | .fnReg _ cid _ _ _ _ => some cid
  | .udReg _ _ _ _ => none

/-- The metatable slot of the userdata backing a registration. -/
def RegDesc.mtv : RegDesc → Option Nat
  | .fnReg _ _ _ _ _ mtv => mtv
  | .udReg _ _ _ mtv => mtv

def RegDesc.toItem : RegDesc → ScopeItem
  | .fnReg rid _ _ _ _ _ => .scopedFn rid
  | .udReg rid _ _ _ => .scopedUd rid

/-- The payload the registration detaches at scope exit. -/
def RegDesc.payload : RegDesc → UDPayload
  | .fnReg _ _ _ ftok _ _ => .cb ftok
  | .udReg _ _ tok _ => .obj tok

/-- Closure ids of the scoped callbacks among a list of registrations. -/
def fnCids : List RegDesc → List Nat
  | [] => []
  | .fnReg _ cid _ _ _ _ :: rest => cid :: fnCids rest
  | .udReg _ _ _ _ :: rest => fnCids rest

/-- A registration is intact in a state: its registry slot, closure and
payload-carrying userdata are all present and linked as registration left
them. -/
def regWF (s : LuaState) : RegDesc → Prop
  | .fnReg rid cid uid ftok restUps mtv =>
      alookup s.registryInt rid = some (.func cid) ∧
      alookup s.closures cid = some ⟨.callbackCall, .userdata uid :: restUps⟩ ∧
      alookup s.udstore uid = some ⟨some (.cb ftok), mtv⟩
  | .udReg rid uid tok mtv =>
      alookup s.registryInt rid = some (.userdata uid) ∧
      alookup s.udstore uid = some ⟨some (.obj tok), mtv⟩

/-- The state effect of running one invalidation action: the registry slot is
freed, the payload is detached, and (for a scoped callback) the sentinel
upvalue is nilled. -/
def regEffect (s : LuaState) : RegDesc → LuaState
  | .fnReg rid cid uid _ restUps mtv =>
      { s with
        registryInt := aremove s.registryInt rid
        closures := aset s.closures cid ⟨.callbackCall, .nil :: restUps⟩
        udstore := aset s.udstore uid ⟨none, mtv⟩ }
  | .udReg rid uid _ mtv =>
      { s with
        registryInt := aremove s.registryInt rid
        udstore := aset s.udstore uid ⟨none, mtv⟩ }

/-- The cumulative state effect of running a list of invalidation actions in
order. -/
def regsEffect (regs : List RegDesc) (s : LuaState) : LuaState :=
  match regs with
  | [] => s
  | d :: rest => regsEffect rest (regEffect s d)

/-! ### Concrete fixtures used to instantiate the verified properties. -/

/-- A root instance handle. -/
def testLua : Lua := ⟨7, false⟩

/-- A small well-formed state of the root above: an empty stack, one pinned
chunk function in registry slot 0, the function metatable under the
light-userdata registry key, and an empty pending-unref list. -/
def testState : LuaState :=
  { mainStateId := 7
    stack := []
    registryInt := [(0, .func 150)]
    registryStr := []
    registryLud := [(0, .table 100)]
    nextRegistryId := 1
    tables := [(100, [])]
    threads := []
    closures := [(150, ⟨.chunk, []⟩)]
    udstore := []
    nextObjId := 200
    registeredUserdata := []
    unrefListId := 7
    unrefList := some [] }

/-- A reference owned by a different root (main state 9). -/
def foreignRef : LuaRef := ⟨9, 5, true⟩

/-- A reference owned by the root of `testState`. -/
def ownRef : LuaRef := ⟨7, 0, true⟩

/-- A durable key minted against the unref list of `testState`. -/
def ownKey : RegistryKey := ⟨0, 7, true⟩

/-- A durable key minted against a different root. -/
def foreignKey : RegistryKey := ⟨0, 9, true⟩

/-- A host type that registers no methods (its dispatch table still gets the
finalizer and the introspection protection marker). -/
def testUD : UserDataT := ⟨42, [], []⟩

/-- A state whose pending-release list holds two live slot ids. -/
def expireState : LuaState :=
  { testState with
    registryInt := [(3, .integer 1), (4, .integer 2), (5, .nil)]
    nextRegistryId := 6
    unrefList := some [3, 4] }

/-- A state holding two intact scope registrations: a scoped callback
(slot 10, closure 20, carrier userdata 30, callback token 0) and a scoped
userdata (slot 11, userdata 31, object token 5). -/
def scopeState : LuaState :=
  { testState with
    registryInt := [(10, .func 20), (11, .userdata 31)]
    closures := [(20, ⟨.callbackCall, [.userdata 30]⟩)]
    udstore := [(30, ⟨some (.cb 0), none⟩), (31, ⟨some (.obj 5), some 100⟩)]
    nextRegistryId := 12
    nextObjId := 40 }

/-- The registration descriptions backing `scopeState`. -/
def scopeRegs : List RegDesc := [.fnReg 10 20 30 0 [] none, .udReg 11 31 5 (some 100)]

/-- A state whose callback closure 60 has been invalidated by scope exit (nil
sentinel upvalue, payload already detached and absent). -/
def destructedState : LuaState :=
  { testState with
    closures := [(60, ⟨.callbackCall, [.nil]⟩)]
    stack := [.integer 5] }

/-- A state whose callback closure 61 is live, with one integer argument on
the stack. -/
def liveCallbackState : LuaState :=
  { testState with
    closures := [(61, ⟨.callbackCall, [.userdata 70]⟩)]
    udstore := [(70, ⟨some (.cb 0), some 100⟩)]
    stack := [.integer 5] }

/-- A host environment that resolves every token to the echoing callback. -/
def echoEnv : Nat → Callback := fun _ => fun args => .ok args

/-- A host environment that resolves every token to a failing callback. -/
def failEnv : Nat → Callback := fun _ => fun _ => .error (.runtimeError "boom")

/-- An inner `FnMut` closure for the mutable-wrapper fixtures. -/
def echoInner : Callback := fun args => .ok args

/-- A host environment in which token 0 is the mutable wrapper around
`echoInner` whose cell is currently borrowed by an outer invocation. -/
def reentrantEnv : Nat → Callback := fun _ => mutCallback echoInner ⟨true⟩

/-- The same mutable wrapper with its cell not borrowed (no invocation in
flight). -/
def quietMutEnv : Nat → Callback := fun _ => mutCallback echoInner ⟨false⟩


/-! ### General lemmas about the monad, the guards, and association lists. -/

@[simp] theorem run_bind {α β : Type} (m : LuaM α) (k : α → LuaM β) (s : LuaState) :
    (m >>= k) s =
      match m s with
      | .ok a s1 => k a s1
      | .err e s1 => .err e s1
      | .panic msg => .panic msg := rfl

@[simp] theorem run_pure {α : Type} (a : α) (s : LuaState) :
    (Pure.pure a : LuaM α) s = .ok a s := rfl

@[simp] theorem run_lpure {α : Type} (a : α) (s : LuaState) :
    LuaM.pure a s = .ok a s := rfl

@[simp] theorem run_getState (s : LuaState) : getState s = .ok s s := rfl

@[simp] theorem run_modifyState (f : LuaState → LuaState) (s : LuaState) :
    modifyState f s = .ok () (f s) := rfl

@[simp] theorem run_throwL {α : Type} (e : LError) (s : LuaState) :
    (throwL e : LuaM α) s = .err e s := rfl

theorem lua_settop_to_self (s : LuaState) : lua_settop_to s.stack.length s = s := by
  unfold lua_settop_to
  rw [if_pos (le_refl _)]
  simp

theorem stack_err_guard_ok {α : Type} {m : LuaM α} {s : LuaState} {a : α} {s1 : LuaState}
    (h : stack_err_guard m s = .ok a s1) :
    m s = .ok a s1 ∧ s1.stack.length = s.stack.length := by
  unfold stack_err_guard at h
  split at h
  next a2 s2 hm =>
    split at h
    next hl =>
      injection h with h1 h2
      subst h1
      subst h2
      exact ⟨hm, hl⟩
    next hl => simp at h
  next e s2 hm => simp at h
  next msg hm => simp at h

theorem stack_guard_ok {α : Type} {m : LuaM α} {s : LuaState} {a : α} {s1 : LuaState}
    (h : stack_guard m s = .ok a s1) :
    m s = .ok a s1 ∧ s1.stack.length = s.stack.length := by
  unfold stack_guard at h
  split at h
  next a2 s2 hm =>
    split at h
    next hl =>
      injection h with h1 h2
      subst h1
      subst h2
      exact ⟨hm, hl⟩
    next hl => simp at h
  next e s2 hm =>
    split at h
    next hl => simp at h
    next hl => simp at h
  next msg hm => simp at h

@[simp] theorem alookup_nil {κ β : Type} [DecidableEq κ] (k : κ) :
    alookup ([] : List (κ × β)) k = none := rfl

@[simp] theorem alookup_cons {κ β : Type} [DecidableEq κ] (p : κ × β) (t : List (κ × β))
    (k : κ) : alookup (p :: t) k = if p.1 = k then some p.2 else alookup t k := rfl

@[simp] theorem aremove_nil {κ β : Type} [DecidableEq κ] (k : κ) :
    aremove ([] : List (κ × β)) k = [] := rfl

@[simp] theorem aremove_cons {κ β : Type} [DecidableEq κ] (p : κ × β) (t : List (κ × β))
    (k : κ) : aremove (p :: t) k = if p.1 = k then aremove t k else p :: aremove t k := rfl

theorem alookup_aremove_self {κ β : Type} [DecidableEq κ] (l : List (κ × β)) (k : κ) :
    alookup (aremove l k) k = none := by
  induction l with
  | nil => rfl
  | cons p t ih =>
      rw [aremove_cons]
      by_cases hp : p.1 = k
      · rw [if_pos hp]
        exact ih
      · rw [if_neg hp, alookup_cons, if_neg hp]
        exact ih

theorem alookup_aremove_ne {κ β : Type} [DecidableEq κ] (l : List (κ × β)) (k k2 : κ)
    (h : k2 ≠ k) : alookup (aremove l k) k2 = alookup l k2 := by
  induction l with
  | nil => rfl
  | cons p t ih =>
      rw [aremove_cons]
      by_cases hp : p.1 = k
      · rw [if_pos hp, alookup_cons]
        rw [if_neg (fun hc : p.1 = k2 => h (by rw [← hc, hp]))]
        exact ih
      · rw [if_neg hp, alookup_cons, alookup_cons]
        by_cases hq : p.1 = k2
        · rw [if_pos hq, if_pos hq]
        · rw [if_neg hq, if_neg hq]
          exact ih

theorem alookup_aset_self {κ β : Type} [DecidableEq κ] (l : List (κ × β)) (k : κ) (v : β) :
    alookup (aset l k v) k = some v := by
  unfold aset
  rw [alookup_cons, if_pos rfl]

theorem alookup_aset_ne {κ β : Type} [DecidableEq κ] (l : List (κ × β)) (k k2 : κ) (v : β)
    (h : k2 ≠ k) : alookup (aset l k v) k2 = alookup l k2 := by
  unfold aset
  rw [alookup_cons, if_neg (fun hc : k = k2 => h hc.symm)]
  exact alookup_aremove_ne l k k2 h

theorem aremove_of_not_mem {κ β : Type} [DecidableEq κ] (l : List (κ × β)) (k : κ)
    (h : k ∉ l.map Prod.fst) : aremove l k = l := by
  induction l with
  | nil => rfl
  | cons p t ih =>
      simp only [List.map_cons, List.mem_cons] at h
      push_neg at h
      rw [aremove_cons, if_neg (fun hc : p.1 = k => h.1 hc.symm)]
      rw [ih h.2]

theorem aremove_length_present {κ β : Type} [DecidableEq κ] (l : List (κ × β)) (k : κ)
    (hnd : (l.map Prod.fst).Nodup) (h : (alookup l k).isSome = true) :
    (aremove l k).length + 1 = l.length := by
  induction l with
  | nil => simp [alookup] at h
  | cons p t ih =>
      simp only [List.map_cons, List.nodup_cons] at hnd
      rw [aremove_cons]
      by_cases hp : p.1 = k
      · rw [if_pos hp]
        rw [aremove_of_not_mem t k (hp ▸ hnd.1)]
        simp
      · rw [if_neg hp]
        rw [alookup_cons, if_neg hp] at h
        simp only [List.length_cons]
        rw [← ih hnd.2 h]

theorem aremove_keys_sublist {κ β : Type} [DecidableEq κ] (l : List (κ × β)) (k : κ) :
    ((aremove l k).map Prod.fst).Sublist (l.map Prod.fst) := by
  induction l with
  | nil => simp
  | cons p t ih =>
      rw [aremove_cons]
      by_cases hp : p.1 = k
      · rw [if_pos hp]
        exact List.sublist_cons_of_sublist p.1 ih
      · rw [if_neg hp]
        simpa using ih.cons₂ p.1

theorem aremove_keys_nodup {κ β : Type} [DecidableEq κ] (l : List (κ × β)) (k : κ)
    (hnd : (l.map Prod.fst).Nodup) : ((aremove l k).map Prod.fst).Nodup :=
  hnd.sublist (aremove_keys_sublist l k)

/-! ### Claim C1 -/

/-- Claim C1, counterexample: pushing a reference owned by a different root
(`foreignRef`, root 9) onto the instance `testLua` (root 7) does NOT surface a
typed, recoverable error — `push_ref` panics (the `assert!` at lines 726-729),
so the claim as stated is false at this input. -/
theorem push_ref_mismatch_is_not_typed_error :
    RunResult.isPanic (push_ref testLua .cur foreignRef testState) = true ∧
    RunResult.isErr (push_ref testLua .cur foreignRef testState) = false := by
  decide

/-- Claim C1, amended: for every owned reference whose owning root differs
from the root of the instance it is pushed onto, `push_ref` detects the
mismatch and fails with an assertion (a panic carrying the message of the
`assert!` — a deliberate crash), not with a typed recoverable error; pushing a
reference whose owning root matches succeeds and pushes the pinned registry
value. -/
theorem push_ref_asserts_same_root (lua : Lua) (target : PushTarget) (lref : LuaRef)
    (s : LuaState) :
    (lref.mainState ≠ lua.mainState →
      push_ref lua target lref s =
        .panic "Lua instance passed Value created from a different Lua") ∧
    (lref.mainState = lua.mainState →
      push_ref lua .cur lref s =
        .ok () { s with
          stack := ((alookup s.registryInt lref.registry_id).getD .nil) :: s.stack }) := by
  constructor
  · intro h
    unfold push_ref
    rw [if_neg h]
  · intro h
    unfold push_ref
    rw [if_pos h]
    rfl

/-- Witness for the amended claim C1 at concrete inputs: the mismatched push
panics, the matching push pushes the pinned chunk function. -/
theorem push_ref_asserts_same_root_witness :
    push_ref testLua .cur foreignRef testState =
      .panic "Lua instance passed Value created from a different Lua" ∧
    push_ref testLua .cur ownRef testState =
      .ok () { testState with stack := [.func 150] } := by
  constructor
  · exact (push_ref_asserts_same_root testLua .cur foreignRef testState).1 (by decide)
  · exact ((push_ref_asserts_same_root testLua .cur ownRef testState).2 (by decide)).trans
      (by decide)

/-! ### Claim C10 -/

/-- Claim C10: for every source string and every chunk name containing a NUL
byte, `Lua::load` returns the `ToLuaConversionError` from `&str` to `string`
carrying the `NulError` message, without invoking the loader and with the
interpreter state left unchanged. -/
theorem load_nul_name_conversion_error (lua : Lua) (source chunkname : String)
    (s : LuaState) (h : containsNul chunkname = true) :
    Lua.load lua source (some chunkname) s =
      .err (.toLuaConversionError "&str" "string" (some (nulErrMessage chunkname))) s := by
  unfold Lua.load stack_err_guard
  simp only [run_bind, check_stack, run_lpure, cstringNew, h, if_true, run_throwL]
  rw [lua_settop_to_self]

/-- Witness for claim C10: a concrete chunk name with an interior NUL byte. -/
theorem load_nul_name_conversion_error_witness :
    Lua.load testLua "return 1" (some ("a".push nulChar ++ "b")) testState =
      .err (.toLuaConversionError "&str" "string"
        (some (nulErrMessage ("a".push nulChar ++ "b")))) testState :=
  load_nul_name_conversion_error testLua "return 1" ("a".push nulChar ++ "b") testState
    (by decide)

/-! ### Claim C9 -/

/-- Claim C9: `remove_registry_value` is atomic with respect to its ownership
check — on a mismatched key it returns `MismatchedRegistryKey` with the state
(registry and pending-release list) untouched; on a matching key it releases
exactly the addressed slot and nothing else (in particular the pending-release
list is unchanged), and the consumed key has its deferred-release flag cleared,
so a key drop with the cleared flag appends nothing to any state. -/
theorem remove_registry_value_atomic (lua : Lua) (key : RegistryKey) (s : LuaState) :
    (key.unrefListId ≠ s.unrefListId →
      Lua.remove_registry_value lua key s = .err .mismatchedRegistryKey s) ∧
    (key.unrefListId = s.unrefListId →
      Lua.remove_registry_value lua key s =
        .ok () { s with registryInt := aremove s.registryInt key.registry_id }) ∧
    (∀ s2 : LuaState, registryKeyDrop { key with drop_unref := false } s2 = s2) := by
  refine ⟨?_, ?_, ?_⟩
  · intro h
    unfold Lua.remove_registry_value
    rw [if_pos h]
    unfold registryKeyDrop
    rw [if_neg (by intro hc; exact h hc.2)]
  · intro h
    unfold Lua.remove_registry_value
    rw [if_neg (by intro hc; exact hc h)]
    simp only [run_bind, luaL_unref, run_modifyState]
    unfold registryKeyDrop
    rw [if_neg (by intro hc; simp at hc)]
  · intro s2
    unfold registryKeyDrop
    rw [if_neg (by intro hc; simp at hc)]

/-- Witness for claim C9 at concrete keys: a foreign key leaves the state
untouched, a matching key removes exactly its slot. -/
theorem remove_registry_value_atomic_witness :
    Lua.remove_registry_value testLua foreignKey testState =
      .err .mismatchedRegistryKey testState ∧
    Lua.remove_registry_value testLua ownKey testState =
      .ok () { testState with registryInt := [] } := by
  constructor
  · exact (remove_registry_value_atomic testLua foreignKey testState).1 (by decide)
  · exact ((remove_registry_value_atomic testLua ownKey testState).2.1 (by decide)).trans
      (by decide)

/-! ### Claim C3 -/

/-- Popping any just-pushed raw value into a host value succeeds and removes
exactly that slot from the stack (every branch of `pop_value`, including the
registry-pinning ones, consumes the top). -/
theorem pop_value_ok (lua : Lua) (v : LValue) (s : LuaState) :
    ∃ hv s1, pop_value lua { s with stack := v :: s.stack } = .ok hv s1 ∧
      s1.stack = s.stack := by
  cases v <;>
    (simp [pop_value, peekTop, popRaw, pop_ref, gc_guard, luaL_ref]
     exact ⟨_, _, ⟨rfl, rfl⟩, rfl⟩)

/-- Claim C3: durable-key operations check the release-list identity — lookup
and removal through any instance sharing the key root succeed, lookup and
removal through an instance of a different root return the dedicated
`MismatchedRegistryKey` error (leaving the state untouched, never a crash),
and `owns_registry_value` answers true exactly when the identities match. -/
theorem registry_key_root_identity (lua : Lua) (key : RegistryKey) (s : LuaState) :
    (key.unrefListId = s.unrefListId →
      RunResult.isOk (Lua.registry_value lua key s) = true) ∧
    (key.unrefListId ≠ s.unrefListId →
      Lua.registry_value lua key s = .err .mismatchedRegistryKey s) ∧
    (key.unrefListId = s.unrefListId →
      RunResult.isOk (Lua.remove_registry_value lua key s) = true) ∧
    (key.unrefListId ≠ s.unrefListId →
      Lua.remove_registry_value lua key s = .err .mismatchedRegistryKey s) ∧
    (Lua.owns_registry_value key s = true ↔ key.unrefListId = s.unrefListId) := by
  refine ⟨?_, ?_, ?_, ?_, ?_⟩
  · intro h
    unfold Lua.registry_value
    rw [if_neg (fun hc => hc h)]
    unfold stack_err_guard
    simp only [run_bind, check_stack, run_lpure, rawgeti_registry, pushRaw,
      run_getState, run_modifyState]
    obtain ⟨hv, s1, hpv, hstk⟩ :=
      pop_value_ok lua ((alookup s.registryInt key.registry_id).getD .nil) s
    rw [hpv]
    simp only [hstk]
    rfl
  · intro h
    unfold Lua.registry_value
    rw [if_pos h]
  · intro h
    unfold Lua.remove_registry_value
    rw [if_neg (fun hc => hc h)]
    simp only [run_bind, luaL_unref, run_modifyState]
    rfl
  · intro h
    unfold Lua.remove_registry_value
    rw [if_pos h]
    unfold registryKeyDrop
    rw [if_neg (by intro hc; exact h hc.2)]
  · unfold Lua.owns_registry_value
    simp

/-- Witness for claim C3 at concrete keys against `testState`. -/
theorem registry_key_root_identity_witness :
    RunResult.isOk (Lua.registry_value testLua ownKey testState) = true ∧
    Lua.registry_value testLua foreignKey testState =
      .err .mismatchedRegistryKey testState ∧
    RunResult.isOk (Lua.remove_registry_value testLua ownKey testState) = true ∧
    Lua.remove_registry_value testLua foreignKey testState =
      .err .mismatchedRegistryKey testState ∧
    Lua.owns_registry_value ownKey testState = true := by
  refine ⟨?_, ?_, ?_, ?_, ?_⟩
  · exact (registry_key_root_identity testLua ownKey testState).1 (by decide)
  · exact (registry_key_root_identity testLua foreignKey testState).2.1 (by decide)
  · exact (registry_key_root_identity testLua ownKey testState).2.2.1 (by decide)
  · exact (registry_key_root_identity testLua foreignKey testState).2.2.2.1 (by decide)
  · exact (registry_key_root_identity testLua ownKey testState).2.2.2.2.mpr (by decide)

/-! ### Claim C6 -/

/-- Running the release loop performs exactly the batch removal on the integer
registry and touches nothing else. -/
theorem unrefLoop_run (ids : List Nat) : ∀ s : LuaState,
    unrefLoop ids s = .ok () { s with registryInt := removeAll ids s.registryInt } := by
  induction ids with
  | nil =>
      intro s
      simp [unrefLoop, removeAll]
  | cons id rest ih =>
      intro s
      simp [unrefLoop, removeAll, luaL_unref, ih]

theorem alookup_aremove_none {κ β : Type} [DecidableEq κ] (l : List (κ × β)) (k k2 : κ)
    (h : alookup l k = none) : alookup (aremove l k2) k = none := by
  by_cases hk : k = k2
  · rw [hk]
    exact alookup_aremove_self l k2
  · rw [alookup_aremove_ne l k2 k hk]
    exact h

theorem alookup_removeAll_none (ids : List Nat) : ∀ (l : List (Nat × LValue)) (k : Nat),
    alookup l k = none → alookup (removeAll ids l) k = none := by
  induction ids with
  | nil => intro l k h; exact h
  | cons id rest ih =>
      intro l k h
      exact ih (aremove l id) k (alookup_aremove_none l k id h)

/-- After draining, every drained id is no longer a live registry slot. -/
theorem removeAll_lookup_none (ids : List Nat) : ∀ (l : List (Nat × LValue)),
    ∀ id ∈ ids, alookup (removeAll ids l) id = none := by
  induction ids with
  | nil => intro l id h; simp at h
  | cons i rest ih =>
      intro l id hmem
      rcases List.mem_cons.mp hmem with h | h
      · subst h
        exact alookup_removeAll_none rest (aremove l id) id (alookup_aremove_self l id)
      · exact ih (aremove l i) id h

/-- Draining `n` distinct, live slot ids shrinks the live-slot count by
exactly `n`. -/
theorem removeAll_length (ids : List Nat) : ∀ l : List (Nat × LValue),
    (l.map Prod.fst).Nodup → ids.Nodup →
    (∀ id ∈ ids, (alookup l id).isSome = true) →
    (removeAll ids l).length + ids.length = l.length := by
  induction ids with
  | nil =>
      intro l _ _ _
      simp [removeAll]
  | cons id rest ih =>
      intro l hkeys hnd hall
      have h1 : (aremove l id).length + 1 = l.length :=
        aremove_length_present l id hkeys (hall id (by simp))
      have hkeys2 := aremove_keys_nodup l id hkeys
      obtain ⟨hid, hnd2⟩ := List.nodup_cons.mp hnd
      have hall2 : ∀ i ∈ rest, (alookup (aremove l id) i).isSome = true := by
        intro i hi
        rw [alookup_aremove_ne l id i (fun hc => hid (hc ▸ hi))]
        exact hall i (by simp [hi])
      have h2 := ih (aremove l id) hkeys2 hnd2 hall2
      simp only [removeAll, List.length_cons]
      omega

/-- Claim C6: for every state whose pending-release list holds distinct live
slot ids, one `expire_registry_values` call swaps in a fresh empty pending
list and releases every pending id exactly once: afterwards the list is
present and empty, every drained id is dead, and the live registry slot count
has dropped by exactly the number of drained ids. -/
theorem expire_registry_values_drains (lua : Lua) (ids : List Nat) (s : LuaState)
    (hl : s.unrefList = some ids) (hnd : ids.Nodup)
    (hkeys : (s.registryInt.map Prod.fst).Nodup)
    (hall : ∀ id ∈ ids, (alookup s.registryInt id).isSome = true) :
    Lua.expire_registry_values lua s =
      .ok () { s with
        unrefList := some []
        registryInt := removeAll ids s.registryInt } ∧
    (removeAll ids s.registryInt).length + ids.length = s.registryInt.length ∧
    (∀ id ∈ ids, alookup (removeAll ids s.registryInt) id = none) := by
  refine ⟨?_, removeAll_length ids s.registryInt hkeys hnd hall,
    removeAll_lookup_none ids s.registryInt⟩
  unfold Lua.expire_registry_values
  rw [hl]
  exact unrefLoop_run ids { s with unrefList := some [] }

/-- Witness for claim C6: a pending list of two live ids is drained, leaving
an empty pending list and two fewer live slots. -/
theorem expire_registry_values_drains_witness :
    Lua.expire_registry_values testLua expireState =
      .ok () { expireState with unrefList := some [], registryInt := [(5, LValue.nil)] } ∧
    (removeAll [3, 4] expireState.registryInt).length + 2 = expireState.registryInt.length := by
  constructor
  · exact ((expire_registry_values_drains testLua [3, 4] expireState rfl (by decide)
      (by decide) (by decide)).1).trans (by decide)
  · exact (expire_registry_values_drains testLua [3, 4] expireState rfl (by decide)
      (by decide) (by decide)).2.1

/-! ### Claim C2 -/

/-- Claim C2: every listed top-level typed API call that returns without error
leaves the operand stack at exactly the depth it found it.  Each operation is
wrapped in the stack guard whose success path asserts this balance (spec
section 4.1); the pre-guard fast paths of the coercions and the registry-key
ownership check never touch the stack. -/
theorem typed_api_calls_preserve_stack_depth :
    (∀ (lua : Lua) (source : String) (name : Option String) (s : LuaState)
        (f : LFunction) (s1 : LuaState),
      Lua.load lua source name s = .ok f s1 → s1.stack.length = s.stack.length) ∧
    (∀ (lua : Lua) (str : String) (s : LuaState) (r : LString) (s1 : LuaState),
      Lua.create_string lua str s = .ok r s1 → s1.stack.length = s.stack.length) ∧
    (∀ (lua : Lua) (s : LuaState) (r : LTable) (s1 : LuaState),
      Lua.create_table lua s = .ok r s1 → s1.stack.length = s.stack.length) ∧
    (∀ (lua : Lua) (pairs : List (Value × Value)) (s : LuaState) (r : LTable)
        (s1 : LuaState),
      Lua.create_table_from lua pairs s = .ok r s1 → s1.stack.length = s.stack.length) ∧
    (∀ (lua : Lua) (f : LFunction) (s : LuaState) (r : LThread) (s1 : LuaState),
      Lua.create_thread lua f s = .ok r s1 → s1.stack.length = s.stack.length) ∧
    (∀ (lua : Lua) (t : UserDataT) (tok : Nat) (s : LuaState) (r : AnyUserData)
        (s1 : LuaState),
      Lua.create_userdata lua t tok s = .ok r s1 → s1.stack.length = s.stack.length) ∧
    (∀ (lua : Lua) (name : String) (t : Value) (s : LuaState) (u : Unit) (s1 : LuaState),
      Lua.set_named_registry_value lua name t s = .ok u s1 →
        s1.stack.length = s.stack.length) ∧
    (∀ (lua : Lua) (name : String) (s : LuaState) (v : Value) (s1 : LuaState),
      Lua.named_registry_value lua name s = .ok v s1 → s1.stack.length = s.stack.length) ∧
    (∀ (lua : Lua) (key : RegistryKey) (s : LuaState) (v : Value) (s1 : LuaState),
      Lua.registry_value lua key s = .ok v s1 → s1.stack.length = s.stack.length) ∧
    (∀ (lua : Lua) (v : Value) (s : LuaState) (r : LString) (s1 : LuaState),
      Lua.coerce_string lua v s = .ok r s1 → s1.stack.length = s.stack.length) ∧
    (∀ (lua : Lua) (v : Value) (s : LuaState) (i : Int) (s1 : LuaState),
      Lua.coerce_integer lua v s = .ok i s1 → s1.stack.length = s.stack.length) ∧
    (∀ (lua : Lua) (v : Value) (s : LuaState) (n : Int) (s1 : LuaState),
      Lua.coerce_number lua v s = .ok n s1 → s1.stack.length = s.stack.length) ∧
    (∀ (lua : Lua) (s : LuaState) (r : LTable) (s1 : LuaState),
      Lua.globals lua s = .ok r s1 → s1.stack.length = s.stack.length) ∧
    (∀ (lua : Lua) (t : UserDataT) (s : LuaState) (id : Nat) (s1 : LuaState),
      Lua.userdata_metatable lua t s = .ok id s1 → s1.stack.length = s.stack.length) ∧
    (∀ (lua : Lua) (ftok : Nat) (s : LuaState) (r : LFunction) (s1 : LuaState),
      Lua.create_callback_function lua ftok s = .ok r s1 →
        s1.stack.length = s.stack.length) := by
  refine ⟨?_, ?_, ?_, ?_, ?_, ?_, ?_, ?_, ?_, ?_, ?_, ?_, ?_, ?_, ?_⟩
  · intro lua source name s f s1 h
    unfold Lua.load at h
    exact (stack_err_guard_ok h).2
  · intro lua str s r s1 h
    unfold Lua.create_string at h
    exact (stack_err_guard_ok h).2
  · intro lua s r s1 h
    unfold Lua.create_table at h
    exact (stack_err_guard_ok h).2
  · intro lua pairs s r s1 h
    unfold Lua.create_table_from at h
    exact (stack_err_guard_ok h).2
  · intro lua f s r s1 h
    unfold Lua.create_thread at h
    exact (stack_err_guard_ok h).2
  · intro lua t tok s r s1 h
    unfold Lua.create_userdata Lua.do_create_userdata at h
    exact (stack_err_guard_ok h).2
  · intro lua name t s u s1 h
    unfold Lua.set_named_registry_value at h
    exact (stack_err_guard_ok h).2
  · intro lua name s v s1 h
    unfold Lua.named_registry_value at h
    exact (stack_err_guard_ok h).2
  · intro lua key s v s1 h
    unfold Lua.registry_value at h
    split at h
    · simp at h
    · exact (stack_err_guard_ok h).2
  · intro lua v s r s1 h
    unfold Lua.coerce_string at h
    cases v <;>
      first
      | exact (stack_err_guard_ok h).2
      | (simp only [run_lpure] at h
         injection h with h1 h2
         rw [← h2])
  · intro lua v s i s1 h
    unfold Lua.coerce_integer at h
    cases v <;>
      first
      | exact (stack_guard_ok h).2
      | (simp only [run_lpure] at h
         injection h with h1 h2
         rw [← h2])
  · intro lua v s n s1 h
    unfold Lua.coerce_number at h
    cases v <;>
      first
      | exact (stack_guard_ok h).2
      | (simp only [run_lpure] at h
         injection h with h1 h2
         rw [← h2])
  · intro lua s r s1 h
    unfold Lua.globals at h
    exact (stack_guard_ok h).2
  · intro lua t s id s1 h
    unfold Lua.userdata_metatable at h
    exact (stack_err_guard_ok h).2
  · intro lua ftok s r s1 h
    unfold Lua.create_callback_function at h
    exact (stack_err_guard_ok h).2

/-- Witness for claim C2: every listed operation, run on the concrete state
`testState` with valid inputs, actually succeeds and reports the entry stack
depth (0) on exit. -/
theorem typed_api_calls_preserve_stack_depth_witness :
    okStackLen (Lua.load testLua "return 1" (some "chunk") testState) = some 0 ∧
    okStackLen (Lua.create_string testLua "hello" testState) = some 0 ∧
    okStackLen (Lua.create_table testLua testState) = some 0 ∧
    okStackLen (Lua.create_table_from testLua [(.integer 1, .integer 2)] testState) = some 0 ∧
    okStackLen (Lua.create_thread testLua (LFunction.mk ownRef) testState) = some 0 ∧
    okStackLen (Lua.create_userdata testLua testUD 3 testState) = some 0 ∧
    okStackLen (Lua.set_named_registry_value testLua "x" (.integer 1) testState) = some 0 ∧
    okStackLen (Lua.named_registry_value testLua "x" testState) = some 0 ∧
    okStackLen (Lua.registry_value testLua ownKey testState) = some 0 ∧
    okStackLen (Lua.coerce_string testLua (.integer 3) testState) = some 0 ∧
    okStackLen (Lua.coerce_integer testLua (.number 3) testState) = some 0 ∧
    okStackLen (Lua.coerce_number testLua (.integer 3) testState) = some 0 ∧
    okStackLen (Lua.globals testLua testState) = some 0 ∧
    okStackLen (Lua.userdata_metatable testLua testUD testState) = some 0 ∧
    okStackLen (Lua.create_callback_function testLua 0 testState) = some 0 := by
  refine ⟨?_, ?_, ?_, ?_, ?_, ?_, ?_, ?_, ?_, ?_, ?_, ?_, ?_, ?_, ?_⟩
  · have hok : RunResult.isOk (Lua.load testLua "return 1" (some "chunk") testState) = true := by decide
    rcases hr : Lua.load testLua "return 1" (some "chunk") testState with ⟨a, s1⟩ | ⟨e, s1⟩ | m
    · exact congrArg some
        ((typed_api_calls_preserve_stack_depth.1 testLua "return 1" (some "chunk") testState a s1 hr).trans (by decide))
    · rw [hr] at hok
      simp [RunResult.isOk] at hok
    · rw [hr] at hok
      simp [RunResult.isOk] at hok
  · have hok : RunResult.isOk (Lua.create_string testLua "hello" testState) = true := by decide
    rcases hr : Lua.create_string testLua "hello" testState with ⟨a, s1⟩ | ⟨e, s1⟩ | m
    · exact congrArg some
        ((typed_api_calls_preserve_stack_depth.2.1 testLua "hello" testState a s1 hr).trans (by decide))
    · rw [hr] at hok
      simp [RunResult.isOk] at hok
    · rw [hr] at hok
      simp [RunResult.isOk] at hok
  · have hok : RunResult.isOk (Lua.create_table testLua testState) = true := by decide
    rcases hr : Lua.create_table testLua testState with ⟨a, s1⟩ | ⟨e, s1⟩ | m
    · exact congrArg some
        ((typed_api_calls_preserve_stack_depth.2.2.1 testLua testState a s1 hr).trans (by decide))
    · rw [hr] at hok
      simp [RunResult.isOk] at hok
    · rw [hr] at hok
      simp [RunResult.isOk] at hok
  · have hok : RunResult.isOk (Lua.create_table_from testLua [(.integer 1, .integer 2)] testState) = true := by decide
    rcases hr : Lua.create_table_from testLua [(.integer 1, .integer 2)] testState with ⟨a, s1⟩ | ⟨e, s1⟩ | m
    · exact congrArg some
        ((typed_api_calls_preserve_stack_depth.2.2.2.1 testLua [(.integer 1, .integer 2)] testState a s1 hr).trans (by decide))
    · rw [hr] at hok
      simp [RunResult.isOk] at hok
    · rw [hr] at hok
      simp [RunResult.isOk] at hok
  · have hok : RunResult.isOk (Lua.create_thread testLua (LFunction.mk ownRef) testState) = true := by decide
    rcases hr : Lua.create_thread testLua (LFunction.mk ownRef) testState with ⟨a, s1⟩ | ⟨e, s1⟩ | m
    · exact congrArg some
        ((typed_api_calls_preserve_stack_depth.2.2.2.2.1 testLua (LFunction.mk ownRef) testState a s1 hr).trans (by decide))
    · rw [hr] at hok
      simp [RunResult.isOk] at hok
    · rw [hr] at hok
      simp [RunResult.isOk] at hok
  · have hok : RunResult.isOk (Lua.create_userdata testLua testUD 3 testState) = true := by decide
    rcases hr : Lua.create_userdata testLua testUD 3 testState with ⟨a, s1⟩ | ⟨e, s1⟩ | m
    · exact congrArg some
        ((typed_api_calls_preserve_stack_depth.2.2.2.2.2.1 testLua testUD 3 testState a s1 hr).trans (by decide))
    · rw [hr] at hok
      simp [RunResult.isOk] at hok
    · rw [hr] at hok
      simp [RunResult.isOk] at hok
  · have hok : RunResult.isOk (Lua.set_named_registry_value testLua "x" (.integer 1) testState) = true := by decide
    rcases hr : Lua.set_named_registry_value testLua "x" (.integer 1) testState with ⟨a, s1⟩ | ⟨e, s1⟩ | m
    · exact congrArg some
        ((typed_api_calls_preserve_stack_depth.2.2.2.2.2.2.1 testLua "x" (.integer 1) testState a s1 hr).trans (by decide))
    · rw [hr] at hok
      simp [RunResult.isOk] at hok
    · rw [hr] at hok
      simp [RunResult.isOk] at hok
  · have hok : RunResult.isOk (Lua.named_registry_value testLua "x" testState) = true := by decide
    rcases hr : Lua.named_registry_value testLua "x" testState with ⟨a, s1⟩ | ⟨e, s1⟩ | m
    · exact congrArg some
        ((typed_api_calls_preserve_stack_depth.2.2.2.2.2.2.2.1 testLua "x" testState a s1 hr).trans (by decide))
    · rw [hr] at hok
      simp [RunResult.isOk] at hok
    · rw [hr] at hok
      simp [RunResult.isOk] at hok
  · have hok : RunResult.isOk (Lua.registry_value testLua ownKey testState) = true := by decide
    rcases hr : Lua.registry_value testLua ownKey testState with ⟨a, s1⟩ | ⟨e, s1⟩ | m
    · exact congrArg some
        ((typed_api_calls_preserve_stack_depth.2.2.2.2.2.2.2.2.1 testLua ownKey testState a s1 hr).trans (by decide))
    · rw [hr] at hok
      simp [RunResult.isOk] at hok
    · rw [hr] at hok
      simp [RunResult.isOk] at hok
  · have hok : RunResult.isOk (Lua.coerce_string testLua (.integer 3) testState) = true := by decide
    rcases hr : Lua.coerce_string testLua (.integer 3) testState with ⟨a, s1⟩ | ⟨e, s1⟩ | m
    · exact congrArg some
        ((typed_api_calls_preserve_stack_depth.2.2.2.2.2.2.2.2.2.1 testLua (.integer 3) testState a s1 hr).trans (by decide))
    · rw [hr] at hok
      simp [RunResult.isOk] at hok
    · rw [hr] at hok
      simp [RunResult.isOk] at hok
  · have hok : RunResult.isOk (Lua.coerce_integer testLua (.number 3) testState) = true := by decide
    rcases hr : Lua.coerce_integer testLua (.number 3) testState with ⟨a, s1⟩ | ⟨e, s1⟩ | m
    · exact congrArg some
        ((typed_api_calls_preserve_stack_depth.2.2.2.2.2.2.2.2.2.2.1 testLua (.number 3) testState a s1 hr).trans (by decide))
    · rw [hr] at hok
      simp [RunResult.isOk] at hok
    · rw [hr] at hok
      simp [RunResult.isOk] at hok
  · have hok : RunResult.isOk (Lua.coerce_number testLua (.integer 3) testState) = true := by decide
    rcases hr : Lua.coerce_number testLua (.integer 3) testState with ⟨a, s1⟩ | ⟨e, s1⟩ | m
    · exact congrArg some
        ((typed_api_calls_preserve_stack_depth.2.2.2.2.2.2.2.2.2.2.2.1 testLua (.integer 3) testState a s1 hr).trans (by decide))
    · rw [hr] at hok
      simp [RunResult.isOk] at hok
    · rw [hr] at hok
      simp [RunResult.isOk] at hok
  · have hok : RunResult.isOk (Lua.globals testLua testState) = true := by decide
    rcases hr : Lua.globals testLua testState with ⟨a, s1⟩ | ⟨e, s1⟩ | m
    · exact congrArg some
        ((typed_api_calls_preserve_stack_depth.2.2.2.2.2.2.2.2.2.2.2.2.1 testLua testState a s1 hr).trans (by decide))
    · rw [hr] at hok
      simp [RunResult.isOk] at hok
    · rw [hr] at hok
      simp [RunResult.isOk] at hok
  · have hok : RunResult.isOk (Lua.userdata_metatable testLua testUD testState) = true := by decide
    rcases hr : Lua.userdata_metatable testLua testUD testState with ⟨a, s1⟩ | ⟨e, s1⟩ | m
    · exact congrArg some
        ((typed_api_calls_preserve_stack_depth.2.2.2.2.2.2.2.2.2.2.2.2.2.1 testLua testUD testState a s1 hr).trans (by decide))
    · rw [hr] at hok
      simp [RunResult.isOk] at hok
    · rw [hr] at hok
      simp [RunResult.isOk] at hok
  · have hok : RunResult.isOk (Lua.create_callback_function testLua 0 testState) = true := by decide
    rcases hr : Lua.create_callback_function testLua 0 testState with ⟨a, s1⟩ | ⟨e, s1⟩ | m
    · exact congrArg some
        ((typed_api_calls_preserve_stack_depth.2.2.2.2.2.2.2.2.2.2.2.2.2.2 testLua 0 testState a s1 hr).trans (by decide))
    · rw [hr] at hok
      simp [RunResult.isOk] at hok
    · rw [hr] at hok
      simp [RunResult.isOk] at hok

/-! ### Claim C8 -/

/-- Inversion of a successful monadic sequence. -/
theorem bind_ok_inv {α β : Type} {m : LuaM α} {k : α → LuaM β} {s s2 : LuaState} {b : β}
    (h : (m >>= k) s = .ok b s2) : ∃ a s1, m s = .ok a s1 ∧ k a s1 = .ok b s2 := by
  rw [run_bind] at h
  rcases hm : m s with ⟨a1, st⟩ | ⟨e, st⟩ | msg <;> rw [hm] at h
  · exact ⟨a1, st, rfl, h⟩
  · exact absurd (show RunResult.err e st = RunResult.ok b s2 from h) (by simp)
  · exact absurd (show RunResult.panic msg = RunResult.ok b s2 from h) (by simp)

/-- Claim C8: the dispatch table for a host type is built at most once per
root — when the per-root `registered_userdata` map already holds an entry for
the `TypeId`, `userdata_metatable` returns that cached slot id with the state
completely unchanged (no table is built); and when no entry exists, a
successful call leaves the freshly pinned slot id cached in the map under the
`TypeId`, so every later call on any instance sharing the root takes the
cached branch. -/
theorem userdata_metatable_cached_by_typeid (lua : Lua) (t : UserDataT) (s : LuaState) :
    (∀ id : Nat, alookup s.registeredUserdata t.typeId = some id →
      Lua.userdata_metatable lua t s = .ok id s) ∧
    (∀ (id : Nat) (s1 : LuaState), alookup s.registeredUserdata t.typeId = none →
      Lua.userdata_metatable lua t s = .ok id s1 →
      alookup s1.registeredUserdata t.typeId = some id) := by
  constructor
  · intro id h
    unfold Lua.userdata_metatable stack_err_guard
    simp only [run_bind, check_stack, run_lpure, run_getState, h]
    simp
  · intro id s1 hnone h
    unfold Lua.userdata_metatable at h
    have h1 := (stack_err_guard_ok h).1
    simp only [run_bind, check_stack, run_lpure, run_getState, hnone] at h1
    obtain ⟨a1, t1, _, h1⟩ := bind_ok_inv h1
    obtain ⟨a2, t2, _, h1⟩ := bind_ok_inv h1
    obtain ⟨a3, t3, _, h1⟩ := bind_ok_inv h1
    obtain ⟨a4, t4, _, h1⟩ := bind_ok_inv h1
    obtain ⟨a5, t5, _, h1⟩ := bind_ok_inv h1
    have h2 : RunResult.ok a5
        { t5 with registeredUserdata := aset t5.registeredUserdata t.typeId a5 } =
        RunResult.ok id s1 := h1
    injection h2 with hid hs
    rw [← hs, ← hid]
    exact alookup_aset_self t5.registeredUserdata t.typeId a5

/-- Witness for claim C8: a first call on `testState` caches the fresh slot id
under `TypeId` 42, and a call on a state already holding a cached entry
returns the cached id with the state unchanged. -/
theorem userdata_metatable_cached_by_typeid_witness :
    (okState (Lua.userdata_metatable testLua testUD testState)).bind
        (fun s1 => alookup s1.registeredUserdata 42) =
      okVal (Lua.userdata_metatable testLua testUD testState) ∧
    Lua.userdata_metatable testLua testUD
        { testState with
          registryInt := [(0, .func 150), (1, .table 100)]
          registeredUserdata := [(42, 1)] } =
      .ok 1
        { testState with
          registryInt := [(0, .func 150), (1, .table 100)]
          registeredUserdata := [(42, 1)] } := by
  constructor
  · have hok : RunResult.isOk (Lua.userdata_metatable testLua testUD testState) = true := by
      decide
    rcases hr : Lua.userdata_metatable testLua testUD testState with ⟨a, s1⟩ | ⟨e, s1⟩ | m
    · exact (userdata_metatable_cached_by_typeid testLua testUD testState).2 a s1
        (by decide) hr
    · rw [hr] at hok
      simp [RunResult.isOk] at hok
    · rw [hr] at hok
      simp [RunResult.isOk] at hok
  · exact (userdata_metatable_cached_by_typeid testLua testUD
      { testState with
        registryInt := [(0, .func 150), (1, .table 100)]
        registeredUserdata := [(42, 1)] }).1 1 (by decide)

/-! ### Claim C5 -/

/-- Popping a scalar top-of-stack value never touches the registry. -/
theorem pop_value_scalar (lua : Lua) (v : LValue) (t : List LValue) (s : LuaState)
    (hs : s.stack = v :: t) (hv : isScalarRaw v = true) :
    pop_value lua s = .ok (rawToHostScalar v) { s with stack := t } := by
  cases v with
  | nil => simp [pop_value, peekTop, popRaw, hs, rawToHostScalar]
  | boolean b => simp [pop_value, peekTop, popRaw, hs, rawToHostScalar]
  | lightuserdata p => simp [pop_value, peekTop, popRaw, hs, rawToHostScalar]
  | integer i => simp [pop_value, peekTop, popRaw, hs, rawToHostScalar]
  | number n => simp [pop_value, peekTop, popRaw, hs, rawToHostScalar]
  | str s2 => simp [isScalarRaw] at hv
  | table i => simp [isScalarRaw] at hv
  | func i => simp [isScalarRaw] at hv
  | thread i => simp [isScalarRaw] at hv
  | userdata i => simp [isScalarRaw] at hv
  | wrappedError e => simp [isScalarRaw] at hv

/-- Draining an all-scalar argument stack yields the arguments in
left-to-right order and empties the stack, with no other state effect. -/
theorem popValueLoop_scalars (lua : Lua) : ∀ (stk : List LValue) (acc : List Value)
    (s : LuaState), s.stack = stk → (∀ v ∈ stk, isScalarRaw v = true) →
    popValueLoop lua stk.length acc s =
      .ok (stk.reverse.map rawToHostScalar ++ acc) { s with stack := [] } := by
  intro stk
  induction stk with
  | nil =>
      intro acc s hs hall
      simp only [List.length_nil, popValueLoop, run_lpure, List.reverse_nil,
        List.map_nil, List.nil_append]
      rw [show ({ s with stack := [] } : LuaState) = s from by rw [← hs]]
  | cons v t ih =>
      intro acc s hs hall
      have hpv := pop_value_scalar lua v t s hs (hall v (by simp))
      simp only [List.length_cons, popValueLoop, run_bind, hpv]
      rw [ih (rawToHostScalar v :: acc) { s with stack := t } rfl
        (fun w hw => hall w (by simp [hw]))]
      simp

/-- Pushing a scalar host value is a plain stack push. -/
theorem push_value_scalar (lua : Lua) (r : Value) (s : LuaState)
    (hr : isScalarVal r = true) :
    push_value lua r s = .ok () { s with stack := hostToRawScalar r :: s.stack } := by
  cases r with
  | nil => simp [push_value, pushRaw, hostToRawScalar]
  | boolean b => simp [push_value, pushRaw, hostToRawScalar]
  | lightuserdata p => simp [push_value, pushRaw, hostToRawScalar]
  | integer i => simp [push_value, pushRaw, hostToRawScalar]
  | number n => simp [push_value, pushRaw, hostToRawScalar]
  | vstr r2 => simp [isScalarVal] at hr
  | vtable r2 => simp [isScalarVal] at hr
  | vfunction r2 => simp [isScalarVal] at hr
  | vthread r2 => simp [isScalarVal] at hr
  | vuserdata r2 => simp [isScalarVal] at hr
  | verror e => simp [isScalarVal] at hr

/-- Pushing a list of scalar results pushes them in order. -/
theorem pushResultsLoop_scalars (lua : Lua) : ∀ (rs : List Value) (s : LuaState),
    (∀ r ∈ rs, isScalarVal r = true) →
    pushResultsLoop lua rs s =
      .ok () { s with stack := (rs.map hostToRawScalar).reverse ++ s.stack } := by
  intro rs
  induction rs with
  | nil =>
      intro s hall
      simp [pushResultsLoop]
  | cons r t ih =>
      intro s hall
      simp only [pushResultsLoop, run_bind,
        push_value_scalar lua r s (hall r (by simp))]
      rw [ih { s with stack := hostToRawScalar r :: s.stack }
        (fun w hw => hall w (by simp [hw]))]
      simp

/-- The callback protocol on a live closure whose payload callback fails:
the drained arguments are handed to the payload and its error is raised. -/
theorem callback_live_error (env : Nat → Callback) (cid uid ftok : Nat)
    (mtv : Option Nat) (s : LuaState) (e : LError)
    (hclos : alookup s.closures cid = some ⟨.callbackCall, [.userdata uid]⟩)
    (hud : alookup s.udstore uid = some ⟨some (.cb ftok), mtv⟩)
    (hstk : ∀ v ∈ s.stack, isScalarRaw v = true)
    (henv : env ftok (s.stack.reverse.map rawToHostScalar) = .error e) :
    callback_call_impl env cid s = .err e { s with stack := [] } := by
  unfold callback_call_impl callback_error
  simp only [run_bind, main_state, getUpvalue1, hclos, List.get?_cons_zero,
    Option.getD_some]
  rw [if_neg (show ¬(LValue.userdata uid = LValue.nil) by simp)]
  simp only [run_bind, get_userdata, hud, lua_gettop, check_stack, run_lpure]
  rw [popValueLoop_scalars ⟨s.mainStateId, true⟩ s.stack [] s rfl hstk]
  simp only [List.append_nil, henv, run_throwL]

/-- The callback protocol on a live closure whose payload callback returns
scalar results: the results are pushed in order and their count reported. -/
theorem callback_live_ok (env : Nat → Callback) (cid uid ftok : Nat)
    (mtv : Option Nat) (s : LuaState) (rs : List Value)
    (hclos : alookup s.closures cid = some ⟨.callbackCall, [.userdata uid]⟩)
    (hud : alookup s.udstore uid = some ⟨some (.cb ftok), mtv⟩)
    (hstk : ∀ v ∈ s.stack, isScalarRaw v = true)
    (henv : env ftok (s.stack.reverse.map rawToHostScalar) = .ok rs)
    (hrs : ∀ r ∈ rs, isScalarVal r = true) :
    callback_call_impl env cid s =
      .ok (Int.ofNat rs.length) { s with stack := (rs.map hostToRawScalar).reverse } := by
  unfold callback_call_impl callback_error
  simp only [run_bind, main_state, getUpvalue1, hclos, List.get?_cons_zero,
    Option.getD_some]
  rw [if_neg (show ¬(LValue.userdata uid = LValue.nil) by simp)]
  simp only [run_bind, get_userdata, hud, lua_gettop, check_stack, run_lpure]
  rw [popValueLoop_scalars ⟨s.mainStateId, true⟩ s.stack [] s rfl hstk]
  simp only [List.append_nil, henv, run_bind, check_stack_err, run_lpure]
  rw [pushResultsLoop_scalars ⟨s.mainStateId, true⟩ rs { s with stack := [] } hrs]
  simp

/-- Claim C5: an invocation of a callback closure invalidated by scope exit
(its sentinel first upvalue is nil) fails immediately with the dedicated
`CallbackDestructed` error, before the payload is read — the state, including
an arbitrary (possibly payload-free) userdata heap, is untouched; an
invocation of a non-invalidated closure proceeds to read the payload and run
it: its error is raised, or its results are pushed and counted. -/
theorem callback_destructed_sentinel (env : Nat → Callback) (cid : Nat) (s : LuaState) :
    (alookup s.closures cid = some ⟨.callbackCall, [LValue.nil]⟩ →
      callback_call_impl env cid s = .err .callbackDestructed s) ∧
    (∀ (uid ftok : Nat) (mtv : Option Nat),
      alookup s.closures cid = some ⟨.callbackCall, [.userdata uid]⟩ →
      alookup s.udstore uid = some ⟨some (.cb ftok), mtv⟩ →
      (∀ v ∈ s.stack, isScalarRaw v = true) →
      ((∀ e : LError, env ftok (s.stack.reverse.map rawToHostScalar) = .error e →
          callback_call_impl env cid s = .err e { s with stack := [] }) ∧
       (∀ rs : List Value, env ftok (s.stack.reverse.map rawToHostScalar) = .ok rs →
          (∀ r ∈ rs, isScalarVal r = true) →
          callback_call_impl env cid s =
            .ok (Int.ofNat rs.length)
              { s with stack := (rs.map hostToRawScalar).reverse }))) := by
  constructor
  · intro h
    unfold callback_call_impl callback_error
    simp only [run_bind, main_state, getUpvalue1, h]
    simp [run_throwL]
  · intro uid ftok mtv hclos hud hstk
    exact ⟨fun e henv => callback_live_error env cid uid ftok mtv s e hclos hud hstk henv,
      fun rs henv hrs => callback_live_ok env cid uid ftok mtv s rs hclos hud hstk henv hrs⟩

/-- Witness for claim C5: invoking the invalidated closure 60 (payload absent
from the heap) reports `CallbackDestructed`; invoking the live closure 61
with one integer argument echoes it back, and with a failing payload raises
its error. -/
theorem callback_destructed_sentinel_witness :
    callback_call_impl echoEnv 60 destructedState = .err .callbackDestructed destructedState ∧
    callback_call_impl echoEnv 61 liveCallbackState =
      .ok 1 { liveCallbackState with stack := [.integer 5] } ∧
    callback_call_impl failEnv 61 liveCallbackState =
      .err (.runtimeError "boom") { liveCallbackState with stack := [] } := by
  refine ⟨?_, ?_, ?_⟩
  · exact (callback_destructed_sentinel echoEnv 60 destructedState).1 (by decide)
  · exact (((callback_destructed_sentinel echoEnv 61 liveCallbackState).2 70 0 (some 100)
      (by decide) (by decide) (by decide)).2 [.integer 5] rfl (by decide)).trans (by decide)
  · exact ((callback_destructed_sentinel failEnv 61 liveCallbackState).2 70 0 (some 100)
      (by decide) (by decide) (by decide)).1 (.runtimeError "boom") rfl

/-! ### Claim C7 -/

/-- Claim C7: a closure wrapped by `create_function_mut` (the identical wrapper
is used by `Lua::create_function_mut` and `Scope::create_function_mut`) and
invoked while an outer invocation of it is still running (its `RefCell` is
borrowed) makes the whole callback invocation fail with
`RecursiveMutCallback` instead of borrowing the captured state a second time;
a non-reentrant invocation borrows the cell and runs the wrapped closure
normally. -/
theorem recursive_mut_callback (env : Nat → Callback) (cid uid ftok : Nat)
    (mtv : Option Nat) (inner : Callback) (c : MutCell) (s : LuaState)
    (hclos : alookup s.closures cid = some ⟨.callbackCall, [.userdata uid]⟩)
    (hud : alookup s.udstore uid = some ⟨some (.cb ftok), mtv⟩)
    (henv : env ftok = mutCallback inner c)
    (hstk : ∀ v ∈ s.stack, isScalarRaw v = true) :
    (c.borrowed = true →
      callback_call_impl env cid s =
        .err .recursiveMutCallback { s with stack := [] }) ∧
    (c.borrowed = false →
      ∀ args : List Value, create_function_mut_body inner c args = (inner args, ⟨false⟩)) := by
  constructor
  · intro hb
    have herr : env ftok (s.stack.reverse.map rawToHostScalar) =
        .error .recursiveMutCallback := by
      rw [henv]
      simp [mutCallback, create_function_mut_body, try_borrow_mut, hb]
    exact callback_live_error env cid uid ftok mtv s .recursiveMutCallback hclos hud
      hstk herr
  · intro hb args
    simp [create_function_mut_body, try_borrow_mut, hb]

/-- Witness for claim C7: invoking the live closure 61 while its wrapper cell
is borrowed reports `RecursiveMutCallback`; with the cell free the wrapper
runs the inner closure. -/
theorem recursive_mut_callback_witness :
    callback_call_impl reentrantEnv 61 liveCallbackState =
      .err .recursiveMutCallback { liveCallbackState with stack := [] } ∧
    create_function_mut_body echoInner ⟨false⟩ [.integer 5] =
      (.ok [.integer 5], ⟨false⟩) := by
  constructor
  · exact (recursive_mut_callback reentrantEnv 61 70 0 (some 100) echoInner ⟨true⟩
      liveCallbackState (by decide) (by decide) rfl (by decide)).1 rfl
  · exact (recursive_mut_callback quietMutEnv 61 70 0 (some 100) echoInner ⟨false⟩
      liveCallbackState (by decide) (by decide) rfl (by decide)).2 rfl [.integer 5]

/-! ### Claim C4 -/

/-- Running the destructor of an intact scoped callback frees its registry
slot, nils the sentinel upvalue, detaches the payload, and returns it. -/
theorem run_destructor_fn_eq (rid cid uid ftok : Nat) (restUps : List LValue)
    (mtv : Option Nat) (s : LuaState)
    (h1 : alookup s.registryInt rid = some (.func cid))
    (h2 : alookup s.closures cid = some ⟨.callbackCall, .userdata uid :: restUps⟩)
    (h3 : alookup s.udstore uid = some ⟨some (.cb ftok), mtv⟩) :
    run_destructor (.scopedFn rid) s =
      .ok (.cb ftok) (regEffect s (.fnReg rid cid uid ftok restUps mtv)) := by
  unfold run_destructor scopedFnDestructor stack_guard
  simp only [run_bind, check_stack, run_lpure, rawgeti_registry, run_getState,
    pushRaw, run_modifyState, h1, Option.getD_some, luaL_unref,
    lua_getupvalue_m1, peekTop, lua_pop, take_userdata, popRaw,
    lua_setupvalue_m2, h2, h3, List.get?_cons_zero, regEffect, List.drop]
  simp

/-- Running the destructor of an intact scoped userdata frees its registry
slot, detaches the payload, and returns it. -/
theorem run_destructor_ud_eq (rid uid tok : Nat) (mtv : Option Nat) (s : LuaState)
    (h1 : alookup s.registryInt rid = some (.userdata uid))
    (h2 : alookup s.udstore uid = some ⟨some (.obj tok), mtv⟩) :
    run_destructor (.scopedUd rid) s =
      .ok (.obj tok) (regEffect s (.udReg rid uid tok mtv)) := by
  unfold run_destructor scopedUdDestructor stack_guard
  simp only [run_bind, check_stack, run_lpure, rawgeti_registry, run_getState,
    pushRaw, run_modifyState, h1, Option.getD_some, luaL_unref,
    take_userdata, popRaw, h2, regEffect]
  simp

/-- Running the destructor of any intact registration yields exactly its
payload and its invalidation effect. -/
theorem run_destructor_eq (d : RegDesc) (s : LuaState) (hwf : regWF s d) :
    run_destructor d.toItem s = .ok d.payload (regEffect s d) := by
  cases d with
  | fnReg rid cid uid ftok restUps mtv =>
      obtain ⟨h1, h2, h3⟩ := hwf
      exact run_destructor_fn_eq rid cid uid ftok restUps mtv s h1 h2 h3
  | udReg rid uid tok mtv =>
      obtain ⟨h1, h2⟩ := hwf
      exact run_destructor_ud_eq rid uid tok mtv s h1 h2

/-- Invalidating one registration leaves every footprint-disjoint registration
intact. -/
theorem regWF_preserved (d d2 : RegDesc) (s : LuaState) (hwf2 : regWF s d2)
    (hrid : d.rid ≠ d2.rid) (huid : d.uid ≠ d2.uid)
    (hcid : ∀ c c2 : Nat, d.cidOf = some c → d2.cidOf = some c2 → c ≠ c2) :
    regWF (regEffect s d) d2 := by
  cases d with
  | fnReg rid cid uid ftok restUps mtv =>
      cases d2 with
      | fnReg rid2 cid2 uid2 ftok2 restUps2 mtv2 =>
          simp only [RegDesc.rid, RegDesc.uid, RegDesc.cidOf] at hrid huid hcid
          obtain ⟨h1, h2, h3⟩ := hwf2
          refine ⟨?_, ?_, ?_⟩
          · show alookup (aremove s.registryInt rid) rid2 = _
            rw [alookup_aremove_ne _ _ _ (Ne.symm hrid)]
            exact h1
          · show alookup (aset s.closures cid _) cid2 = _
            rw [alookup_aset_ne _ _ _ _ (Ne.symm (hcid cid cid2 rfl rfl))]
            exact h2
          · show alookup (aset s.udstore uid _) uid2 = _
            rw [alookup_aset_ne _ _ _ _ (Ne.symm huid)]
            exact h3
      | udReg rid2 uid2 tok2 mtv2 =>
          simp only [RegDesc.rid, RegDesc.uid, RegDesc.cidOf] at hrid huid hcid
          obtain ⟨h1, h2⟩ := hwf2
          refine ⟨?_, ?_⟩
          · show alookup (aremove s.registryInt rid) rid2 = _
            rw [alookup_aremove_ne _ _ _ (Ne.symm hrid)]
            exact h1
          · show alookup (aset s.udstore uid _) uid2 = _
            rw [alookup_aset_ne _ _ _ _ (Ne.symm huid)]
            exact h2
  | udReg rid uid tok mtv =>
      cases d2 with
      | fnReg rid2 cid2 uid2 ftok2 restUps2 mtv2 =>
          simp only [RegDesc.rid, RegDesc.uid, RegDesc.cidOf] at hrid huid hcid
          obtain ⟨h1, h2, h3⟩ := hwf2
          refine ⟨?_, ?_, ?_⟩
          · show alookup (aremove s.registryInt rid) rid2 = _
            rw [alookup_aremove_ne _ _ _ (Ne.symm hrid)]
            exact h1
          · exact h2
          · show alookup (aset s.udstore uid _) uid2 = _
            rw [alookup_aset_ne _ _ _ _ (Ne.symm huid)]
            exact h3
      | udReg rid2 uid2 tok2 mtv2 =>
          simp only [RegDesc.rid, RegDesc.uid, RegDesc.cidOf] at hrid huid hcid
          obtain ⟨h1, h2⟩ := hwf2
          refine ⟨?_, ?_⟩
          · show alookup (aremove s.registryInt rid) rid2 = _
            rw [alookup_aremove_ne _ _ _ (Ne.symm hrid)]
            exact h1
          · show alookup (aset s.udstore uid _) uid2 = _
            rw [alookup_aset_ne _ _ _ _ (Ne.symm huid)]
            exact h2

/-- A registration with a closure id contributes it to `fnCids`. -/
theorem cidOf_mem_fnCids : ∀ (regs : List RegDesc) (d : RegDesc) (c : Nat),
    d ∈ regs → d.cidOf = some c → c ∈ fnCids regs := by
  intro regs
  induction regs with
  | nil =>
      intro d c h _
      simp at h
  | cons d0 rest ih =>
      intro d c hmem hc
      rcases List.mem_cons.mp hmem with h | h
      · subst h
        cases d with
        | fnReg rid cid uid ftok restUps mtv =>
            simp only [RegDesc.cidOf] at hc
            injection hc with hc
            subst hc
            simp [fnCids]
        | udReg rid uid tok mtv => simp [RegDesc.cidOf] at hc
      · cases d0 with
        | fnReg rid cid uid ftok restUps mtv =>
            simp only [fnCids, List.mem_cons]
            exact Or.inr (ih d c h hc)
        | udReg rid uid tok mtv =>
            simp only [fnCids]
            exact ih d c h hc

/-- `fnCids` distinctness passes to the tail. -/
theorem fnCids_tail_nodup (d : RegDesc) (rest : List RegDesc)
    (h : (fnCids (d :: rest)).Nodup) : (fnCids rest).Nodup := by
  cases d with
  | fnReg rid cid uid ftok restUps mtv => exact (List.nodup_cons.mp h).2
  | udReg rid uid tok mtv => exact h

/-- Phase one of scope exit runs every invalidation action in registration
order, producing exactly the detached payloads in registration order and the
cumulative invalidation effect. -/
theorem scopeDropLoop_run : ∀ (regs : List RegDesc) (s : LuaState),
    (∀ d ∈ regs, regWF s d) →
    (regs.map RegDesc.rid).Nodup →
    (fnCids regs).Nodup →
    (regs.map RegDesc.uid).Nodup →
    scopeDropLoop (regs.map RegDesc.toItem) s =
      .ok (regs.map RegDesc.payload) (regsEffect regs s) := by
  intro regs
  induction regs with
  | nil =>
      intro s _ _ _ _
      simp [scopeDropLoop, regsEffect]
  | cons d rest ih =>
      intro s hwf hrid hcid huid
      have hdes := run_destructor_eq d s (hwf d (by simp))
      have hwf2 : ∀ d2 ∈ rest, regWF (regEffect s d) d2 := by
        intro d2 h2
        apply regWF_preserved d d2 s (hwf d2 (by simp [h2]))
        · intro hc
          exact (List.nodup_cons.mp hrid).1 (hc ▸ List.mem_map_of_mem RegDesc.rid h2)
        · intro hc
          exact (List.nodup_cons.mp huid).1 (hc ▸ List.mem_map_of_mem RegDesc.uid h2)
        · intro c c2 hc hc2 hcc
          have hc2mem : c2 ∈ fnCids rest := cidOf_mem_fnCids rest d2 c2 h2 hc2
          cases d with
          | fnReg rid cid uid ftok restUps mtv =>
              simp only [RegDesc.cidOf] at hc
              injection hc with hc
              have : (fnCids (RegDesc.fnReg rid cid uid ftok restUps mtv :: rest)).Nodup :=
                hcid
              simp only [fnCids, List.nodup_cons] at this
              exact this.1 (hc ▸ hcc ▸ hc2mem)
          | udReg rid uid tok mtv => simp [RegDesc.cidOf] at hc
      have hloop := ih (regEffect s d) hwf2 (List.nodup_cons.mp hrid).2
        (fnCids_tail_nodup d rest hcid) (List.nodup_cons.mp huid).2
      simp only [List.map_cons, scopeDropLoop, run_bind, hdes, hloop, run_lpure,
        regsEffect]

/-- Later invalidation actions do not touch the slots of a footprint-disjoint
registration: its registry slot, userdata and (optional) closure read the
same. -/
theorem regsEffect_untouched : ∀ (regs : List RegDesc) (s : LuaState)
    (r u : Nat) (oc : Option Nat),
    (∀ d2 ∈ regs, r ≠ d2.rid) →
    (∀ d2 ∈ regs, u ≠ d2.uid) →
    (∀ d2 ∈ regs, ∀ c c2 : Nat, oc = some c → d2.cidOf = some c2 → c ≠ c2) →
    alookup (regsEffect regs s).registryInt r = alookup s.registryInt r ∧
    alookup (regsEffect regs s).udstore u = alookup s.udstore u ∧
    (∀ c : Nat, oc = some c →
      alookup (regsEffect regs s).closures c = alookup s.closures c) := by
  intro regs
  induction regs with
  | nil =>
      intro s r u oc _ _ _
      exact ⟨rfl, rfl, fun _ _ => rfl⟩
  | cons d2 rest ih =>
      intro s r u oc hr hu hc
      have step :
          alookup (regEffect s d2).registryInt r = alookup s.registryInt r ∧
          alookup (regEffect s d2).udstore u = alookup s.udstore u ∧
          (∀ c : Nat, oc = some c →
            alookup (regEffect s d2).closures c = alookup s.closures c) := by
        cases d2 with
        | fnReg rid cid uid ftok restUps mtv =>
            refine ⟨?_, ?_, ?_⟩
            · show alookup (aremove s.registryInt rid) r = _
              refine alookup_aremove_ne _ _ _ ?_
              intro hq
              exact hr (RegDesc.fnReg rid cid uid ftok restUps mtv) (by simp) hq
            · show alookup (aset s.udstore uid _) u = _
              refine alookup_aset_ne _ _ _ _ ?_
              intro hq
              exact hu (RegDesc.fnReg rid cid uid ftok restUps mtv) (by simp) hq
            · intro c hcc
              show alookup (aset s.closures cid _) c = _
              refine alookup_aset_ne _ _ _ _ ?_
              intro hq
              exact hc (RegDesc.fnReg rid cid uid ftok restUps mtv) (by simp) c cid
                hcc rfl hq
        | udReg rid uid tok mtv =>
            refine ⟨?_, ?_, ?_⟩
            · show alookup (aremove s.registryInt rid) r = _
              refine alookup_aremove_ne _ _ _ ?_
              intro hq
              exact hr (RegDesc.udReg rid uid tok mtv) (by simp) hq
            · show alookup (aset s.udstore uid _) u = _
              refine alookup_aset_ne _ _ _ _ ?_
              intro hq
              exact hu (RegDesc.udReg rid uid tok mtv) (by simp) hq
            · intro c _
              rfl
      have tail := ih (regEffect s d2) r u oc
        (fun d3 h3 => hr d3 (by simp [h3]))
        (fun d3 h3 => hu d3 (by simp [h3]))
        (fun d3 h3 => hc d3 (by simp [h3]))
      refine ⟨?_, ?_, ?_⟩
      · show alookup (regsEffect rest (regEffect s d2)).registryInt r = _
        rw [tail.1, step.1]
      · show alookup (regsEffect rest (regEffect s d2)).udstore u = _
        rw [tail.2.1, step.2.1]
      · intro c hcc
        show alookup (regsEffect rest (regEffect s d2)).closures c = _
        rw [tail.2.2 c hcc, step.2.2 c hcc]

/-- The footprint of the head registration is disjoint from every tail
registration, given the three distinctness conditions. -/
theorem head_disjoint (d : RegDesc) (rest : List RegDesc)
    (hrid : ((d :: rest).map RegDesc.rid).Nodup)
    (hcid : (fnCids (d :: rest)).Nodup)
    (huid : ((d :: rest).map RegDesc.uid).Nodup) :
    (∀ d2 ∈ rest, d.rid ≠ d2.rid) ∧ (∀ d2 ∈ rest, d.uid ≠ d2.uid) ∧
    (∀ d2 ∈ rest, ∀ c c2 : Nat, d.cidOf = some c → d2.cidOf = some c2 → c ≠ c2) := by
  refine ⟨?_, ?_, ?_⟩
  · intro d2 h2 hc
    exact (List.nodup_cons.mp hrid).1 (hc ▸ List.mem_map_of_mem RegDesc.rid h2)
  · intro d2 h2 hc
    exact (List.nodup_cons.mp huid).1 (hc ▸ List.mem_map_of_mem RegDesc.uid h2)
  · intro d2 h2 c c2 hc hc2 hcc
    have hc2mem : c2 ∈ fnCids rest := cidOf_mem_fnCids rest d2 c2 h2 hc2
    cases d with
    | fnReg rid cid uid ftok restUps mtv =>
        simp only [RegDesc.cidOf] at hc
        injection hc with hc
        simp only [fnCids, List.nodup_cons] at hcid
        exact hcid.1 (hc ▸ hcc ▸ hc2mem)
    | udReg rid uid tok mtv => simp [RegDesc.cidOf] at hc

/-- Invalidating the head registration keeps every tail registration
intact. -/
theorem head_preserves_tail (d : RegDesc) (rest : List RegDesc) (s : LuaState)
    (hwf : ∀ d2 ∈ d :: rest, regWF s d2)
    (hrid : ((d :: rest).map RegDesc.rid).Nodup)
    (hcid : (fnCids (d :: rest)).Nodup)
    (huid : ((d :: rest).map RegDesc.uid).Nodup) :
    ∀ d2 ∈ rest, regWF (regEffect s d) d2 := by
  intro d2 h2
  obtain ⟨h1, h2d, h3⟩ := head_disjoint d rest hrid hcid huid
  exact regWF_preserved d d2 s (hwf d2 (by simp [h2])) (h1 d2 h2) (h2d d2 h2)
    (fun c c2 => h3 d2 h2 c c2)

/-- After all invalidation actions have run, every registration is
invalidated: its registry slot is gone, its payload is detached (with the
metatable left in place), and a scoped callback closure has a nil sentinel
upvalue. -/
theorem regsEffect_invalidated : ∀ (regs : List RegDesc) (s : LuaState),
    (∀ d ∈ regs, regWF s d) →
    (regs.map RegDesc.rid).Nodup →
    (fnCids regs).Nodup →
    (regs.map RegDesc.uid).Nodup →
    ∀ d ∈ regs,
      alookup (regsEffect regs s).registryInt d.rid = none ∧
      alookup (regsEffect regs s).udstore d.uid = some ⟨none, d.mtv⟩ ∧
      (∀ (rid cid uid ftok : Nat) (restUps : List LValue) (mtv : Option Nat),
        d = RegDesc.fnReg rid cid uid ftok restUps mtv →
        alookup (regsEffect regs s).closures cid =
          some ⟨.callbackCall, .nil :: restUps⟩) := by
  intro regs
  induction regs with
  | nil =>
      intro s _ _ _ _ d hd
      simp at hd
  | cons d0 rest ih =>
      intro s hwf hrid hcid huid d hd
      rcases List.mem_cons.mp hd with h | h
      · subst h
        obtain ⟨hdr, hdu, hdc⟩ := head_disjoint d rest hrid hcid huid
        have hUn := regsEffect_untouched rest (regEffect s d) d.rid d.uid d.cidOf
          hdr hdu (fun d2 h2 c c2 hc hc2 => hdc d2 h2 c c2 hc hc2)
        refine ⟨?_, ?_, ?_⟩
        · show alookup (regsEffect rest (regEffect s d)).registryInt d.rid = none
          rw [hUn.1]
          cases d with
          | fnReg rid cid uid ftok restUps mtv => exact alookup_aremove_self _ _
          | udReg rid uid tok mtv => exact alookup_aremove_self _ _
        · show alookup (regsEffect rest (regEffect s d)).udstore d.uid =
            some ⟨none, d.mtv⟩
          rw [hUn.2.1]
          cases d with
          | fnReg rid cid uid ftok restUps mtv => exact alookup_aset_self _ _ _
          | udReg rid uid tok mtv => exact alookup_aset_self _ _ _
        · intro rid cid uid ftok restUps mtv heq
          subst heq
          show alookup (regsEffect rest
            (regEffect s (RegDesc.fnReg rid cid uid ftok restUps mtv))).closures cid =
            some ⟨.callbackCall, .nil :: restUps⟩
          rw [hUn.2.2 cid rfl]
          exact alookup_aset_self _ _ _
      · exact ih (regEffect s d0) (head_preserves_tail d0 rest s hwf hrid hcid huid)
          (List.nodup_cons.mp hrid).2 (fnCids_tail_nodup d0 rest hcid)
          (List.nodup_cons.mp huid).2 d h

/-- In the scope-exit event order, every slot-unlink event precedes every
payload-destructor event. -/
theorem dropTrace_unlinks_before_dtors (items : List ScopeItem)
    (payloads : List UDPayload) (i j r : Nat) (p : UDPayload)
    (hi : (Scope.dropTrace items payloads).get? i = some (.unlink r))
    (hj : (Scope.dropTrace items payloads).get? j = some (.dtor p)) :
    i < j := by
  unfold Scope.dropTrace at hi hj
  have hiN : i < (items.map fun it => ScopeEvent.unlink it.rid).length := by
    by_contra hge
    push_neg at hge
    rw [List.get?_append_right hge] at hi
    obtain ⟨p2, _, hp2⟩ := List.mem_map.mp (List.get?_mem hi)
    exact ScopeEvent.noConfusion hp2
  have hjN : (items.map fun it => ScopeEvent.unlink it.rid).length ≤ j := by
    by_contra hlt
    push_neg at hlt
    rw [List.get?_append hlt] at hj
    obtain ⟨it2, _, hit⟩ := List.mem_map.mp (List.get?_mem hj)
    exact ScopeEvent.noConfusion hit
  omega

/-- Claim C4: for a scope holding intact registrations with disjoint
footprints, scope exit runs every invalidation action in registration order
(phase one yields exactly the detached payloads, in registration order, and
the cumulative invalidation effect), every registered slot ends unlinked — the
registry slot freed, the payload detached, a scoped callback sentinel nilled —
and in the realized event order every unlink precedes every payload
destructor. -/
theorem scope_exit_unlinks_before_destructors (regs : List RegDesc) (s : LuaState)
    (hwf : ∀ d ∈ regs, regWF s d)
    (hrid : (regs.map RegDesc.rid).Nodup)
    (hcid : (fnCids regs).Nodup)
    (huid : (regs.map RegDesc.uid).Nodup) :
    Scope.drop (regs.map RegDesc.toItem) s =
      .ok (regs.map RegDesc.payload) (regsEffect regs s) ∧
    (regs.map RegDesc.payload).length = regs.length ∧
    (∀ d ∈ regs,
      alookup (regsEffect regs s).registryInt d.rid = none ∧
      alookup (regsEffect regs s).udstore d.uid = some ⟨none, d.mtv⟩) ∧
    (∀ (rid cid uid ftok : Nat) (restUps : List LValue) (mtv : Option Nat),
      RegDesc.fnReg rid cid uid ftok restUps mtv ∈ regs →
      alookup (regsEffect regs s).closures cid =
        some ⟨.callbackCall, .nil :: restUps⟩) ∧
    (∀ (i j r : Nat) (p : UDPayload),
      (Scope.dropTrace (regs.map RegDesc.toItem)
        (regs.map RegDesc.payload)).get? i = some (.unlink r) →
      (Scope.dropTrace (regs.map RegDesc.toItem)
        (regs.map RegDesc.payload)).get? j = some (.dtor p) →
      i < j) := by
  refine ⟨scopeDropLoop_run regs s hwf hrid hcid huid, List.length_map _ _, ?_, ?_, ?_⟩
  · intro d hd
    have h := regsEffect_invalidated regs s hwf hrid hcid huid d hd
    exact ⟨h.1, h.2.1⟩
  · intro rid cid uid ftok restUps mtv hmem
    exact (regsEffect_invalidated regs s hwf hrid hcid huid _ hmem).2.2 rid cid uid
      ftok restUps mtv rfl
  · intro i j r p hi hj
    exact dropTrace_unlinks_before_dtors _ _ i j r p hi hj

/-- Witness for claim C4: the two intact registrations of `scopeState` (one
scoped callback, one scoped userdata) are both invalidated by one scope exit,
in registration order. -/
theorem scope_exit_unlinks_before_destructors_witness :
    Scope.drop [.scopedFn 10, .scopedUd 11] scopeState =
      .ok [.cb 0, .obj 5] (regsEffect scopeRegs scopeState) ∧
    alookup (regsEffect scopeRegs scopeState).registryInt 10 = none ∧
    alookup (regsEffect scopeRegs scopeState).udstore 30 = some ⟨none, none⟩ ∧
    alookup (regsEffect scopeRegs scopeState).closures 20 =
      some ⟨.callbackCall, [.nil]⟩ := by
  have h := scope_exit_unlinks_before_destructors scopeRegs scopeState
    (by
      intro d hd
      rcases List.mem_cons.mp hd with h1 | h1
      · subst h1
        exact ⟨by decide, by decide, by decide⟩
      · rcases List.mem_cons.mp h1 with h2 | h2
        · subst h2
          exact ⟨by decide, by decide⟩
        · simp at h2)
    (by decide) (by decide) (by decide)
  refine ⟨h.1, ?_, ?_, ?_⟩
  · exact (h.2.2.1 (.fnReg 10 20 30 0 [] none) (by decide)).1
  · exact (h.2.2.1 (.fnReg 10 20 30 0 [] none) (by decide)).2
  · exact h.2.2.2.1 10 20 30 0 [] none (by decide)
